import Mathlib

/-!
Shallow embedding of the AgroPulse exchange marketplace
(`backend/app/routes/exchange.py`): tokenized assets, escrow transactions,
disputes, and the route handlers that operate on the three in-memory
dictionaries `ASSETS_DB`, `TRANSACTIONS_DB`, `DISPUTES_DB`.

Modelling conventions:
* Python floats (quantities, prices, fees) are modelled as exact rationals.
* `datetime.now()` is modelled by an explicit `now : Int` parameter measured
  in hours; `timedelta(hours=h)` is `+ h` and `timedelta(days=d)` is `+ d*24`.
* Dictionary keys (uuid4 strings in Python) are modelled as naturals drawn
  from a `nextId` counter carried in the state, which captures the freshness
  of generated uuids.
* Each handler takes the state and returns `Except ApiError out × state`,
  threading the state exactly in the order the Python code mutates the
  dictionaries, so a handler that raises after a partial mutation returns
  the partially mutated state (`.internalKeyError` marks the places where
  the Python code would raise an unhandled `KeyError`/`TypeError`).
* Fields that no modelled handler reads or writes (buyer phone numbers,
  payment method, GPS coordinates used only by the haversine location
  filter, etc.) are omitted; every field below is read or written by one of
  the embedded handlers.
-/

namespace AgroPulse

inductive AssetStatus where
  | draft
  | active
  | in_escrow
  | sold
  | disputed
  | cancelled
deriving DecidableEq, Repr

inductive QualityGrade where
  | grade_a_premium
  | grade_b_standard
  | grade_c_basic
deriving DecidableEq, Repr

inductive TransactionStatus where
  | pending
  | funds_escrowed
  | delivery_proof_submitted
  | in_acceptance_window
  | completed
  | disputed
  | refunded
deriving DecidableEq, Repr

/-- Dispute lifecycle states; `opened` models the Python value `OPEN`
(`open` is a Lean keyword). -/
inductive DisputeStatus where
  | opened
  | under_review
  | resolved
  | escalated
deriving DecidableEq, Repr

/-- The fields of `AIVerificationData` that the embedded handlers read:
quality-grade scoring in `create_asset_listing` and the evidence snapshot in
`create_dispute`.  `has_storage_condition_proof` models presence of the
optional `storage_condition_proof` object. -/
structure AIVerification where
  harvest_health_score : Option ℚ
  spoilage_risk_score : ℚ
  has_storage_condition_proof : Bool
  pest_free_certification : Bool
  soil_health_score : Option ℚ
  ai_confidence_score : ℚ
deriving DecidableEq, Repr

structure TokenizedAsset where
  seller_id : String
  crop_type : String
  quantity_kg : ℚ
  unit_price_kes : ℚ
  total_value_kes : ℚ
  quality_grade : QualityGrade
  ai_verification : AIVerification
  status : AssetStatus
  available_quantity_kg : ℚ
  listed_at : Option ℤ
  expires_at : Option ℤ
deriving DecidableEq, Repr

structure EscrowTransaction where
  asset_id : ℕ
  seller_id : String
  buyer_id : String
  quantity_kg : ℚ
  agreed_price_per_kg : ℚ
  total_amount_kes : ℚ
  funds_escrowed_at : Option ℤ
  funds_locked : Bool
  expected_delivery_date : ℤ
  delivery_proof_images : List String
  delivery_proof_submitted_at : Option ℤ
  delivery_qr_code : Option String
  digital_signature : Option String
  acceptance_window_hours : ℤ
  acceptance_window_start : Option ℤ
  acceptance_window_end : Option ℤ
  buyer_accepted : Bool
  buyer_acceptance_date : Option ℤ
  status : TransactionStatus
  completed_at : Option ℤ
  seller_payout_amount : ℚ
  platform_fee_kes : ℚ
deriving DecidableEq, Repr

structure DisputeCase where
  transaction_id : ℕ
  raised_by : String
  raised_by_user_id : String
  dispute_reason : String
  dispute_category : String
  description : String
  evidence_images : List String
  pre_harvest_health_score : Option ℚ
  spoilage_risk_at_sale : Option ℚ
  status : DisputeStatus
  assigned_arbitrator_id : Option String
  arbitrator_name : Option String
  arbitration_notes : Option String
  resolution : Option String
  refund_amount_kes : ℚ
  resolved_at : Option ℤ
deriving DecidableEq, Repr

/-- The distinct `HTTPException` raise sites of the embedded handlers.
`internalKeyError` stands for the unhandled `KeyError`/`TypeError` crashes
(HTTP 500) that the Python code can hit on dangling references. -/
inductive ApiError where
  | assetNotFound
  | verificationTooLow
  | assetNotAvailable
  | insufficientQuantity
  | transactionNotFound
  | fundsAlreadyEscrowed
  | fundsNotEscrowed
  | unauthorizedBuyer
  | notInAcceptanceWindow
  | windowNotExpired
  | disputeNotFound
  | unauthorizedArbitrator
  | internalKeyError
deriving DecidableEq, Repr

def exceptIsOk : Except ApiError α → Bool
  | .ok _ => true
  | .error _ => false

instance [DecidableEq ε] [DecidableEq α] : DecidableEq (Except ε α) := fun x y =>
  match x, y with
  | .ok a, .ok b =>
    decidable_of_iff (a = b) ⟨fun h => h ▸ rfl, fun h => by injection h⟩
  | .ok _, .error _ => isFalse (fun h => by injection h)
  | .error _, .ok _ => isFalse (fun h => by injection h)
  | .error e, .error f =>
    decidable_of_iff (e = f) ⟨fun h => h ▸ rfl, fun h => by injection h⟩

/-- A Python dict keyed by generated ids, as an insertion-ordered
association list. -/
abbrev Db (α : Type) := List (ℕ × α)

def dbGet : Db α → ℕ → Option α
  | [], _ => none
  | p :: db, k => if p.1 = k then some p.2 else dbGet db k

def dbHasKey : Db α → ℕ → Bool
  | [], _ => false
  | p :: db, k => p.1 == k || dbHasKey db k

/-- `db[k] = v` on a Python dict: replace if the key is present, otherwise
append (Python dicts preserve insertion order). -/
def dbSet (db : Db α) (k : ℕ) (v : α) : Db α :=
  if dbHasKey db k then db.map (fun p => if p.1 == k then (k, v) else p)
  else db ++ [(k, v)]

/-- The three module-level dictionaries plus the id supply. -/
structure ExchangeState where
  assets : Db TokenizedAsset
  txns : Db EscrowTransaction
  disputes : Db DisputeCase
  nextId : ℕ
deriving DecidableEq, Repr

def initState : ExchangeState := ⟨[], [], [], 0⟩

/-! ## Handlers -/

/-- Client-supplied payload of `POST /assets/create` (pydantic fills
`status` with `DRAFT` by default but the client may supply it; the handler
overwrites `available_quantity_kg`, `total_value_kes` and
`quality_grade`). -/
structure AssetCreateArgs where
  seller_id : String
  crop_type : String
  quantity_kg : ℚ
  unit_price_kes : ℚ
  ai_verification : AIVerification
  status : AssetStatus
deriving DecidableEq, Repr

/-- The verification-completeness score of `create_asset_listing`.
Python truthiness: a `harvest_health_score`/`soil_health_score` of `None`
or `0.0` is falsy, which is subsumed by the strict comparisons. -/
def verification_score (ai : AIVerification) : ℚ :=
  (if (match ai.harvest_health_score with | some h => decide (80 < h) | none => false) then 25 else 0)
  + (if ai.has_storage_condition_proof then 25 else 0)
  + (if ai.pest_free_certification then 25 else 0)
  + (if (match ai.soil_health_score with | some h => decide (70 < h) | none => false) then 25 else 0)

def create_asset_listing (args : AssetCreateArgs) (s : ExchangeState) :
    Except ApiError (ℕ × TokenizedAsset) × ExchangeState :=
  if args.ai_verification.ai_confidence_score < 60 then (.error .verificationTooLow, s)
  else
    let vs := verification_score args.ai_verification
    let grade : QualityGrade :=
      if 90 ≤ vs then .grade_a_premium
      else if 60 ≤ vs then .grade_b_standard
      else .grade_c_basic
    let a : TokenizedAsset := {
      seller_id := args.seller_id
      crop_type := args.crop_type
      quantity_kg := args.quantity_kg
      unit_price_kes := args.unit_price_kes
      total_value_kes := args.quantity_kg * args.unit_price_kes
      quality_grade := grade
      ai_verification := args.ai_verification
      status := args.status
      available_quantity_kg := args.quantity_kg
      listed_at := none
      expires_at := none }
    (.ok (s.nextId, a),
      { s with assets := dbSet s.assets s.nextId a, nextId := s.nextId + 1 })

def publish_asset (aid : ℕ) (expires_in_days : ℤ) (now : ℤ) (s : ExchangeState) :
    Except ApiError Unit × ExchangeState :=
  match dbGet s.assets aid with
  | none => (.error .assetNotFound, s)
  | some a =>
    let a2 := { a with
      status := AssetStatus.active
      listed_at := some now
      expires_at := some (now + expires_in_days * 24) }
    (.ok (), { s with assets := dbSet s.assets aid a2 })

/-- Python truthiness of the optional `crop_type` query filter: an empty
string disables the filter; matching is case-insensitive. -/
def matchesCrop (copt : Option String) (a : TokenizedAsset) : Bool :=
  match copt with
  | none => true
  | some c =>
    if c = "" then true
    else (a.crop_type.map Char.toLower) == (c.map Char.toLower)

def matchesGrade (gopt : Option QualityGrade) (a : TokenizedAsset) : Bool :=
  match gopt with
  | none => true
  | some g => a.quality_grade == g

/-- Python truthiness: `max_price = 0.0` is falsy and disables the filter. -/
def matchesMaxPrice (mopt : Option ℚ) (a : TokenizedAsset) : Bool :=
  match mopt with
  | none => true
  | some m => if m = 0 then true else decide (a.unit_price_kes ≤ m)

/-- Python truthiness: `min_quantity = 0.0` is falsy and disables the filter. -/
def matchesMinQty (mopt : Option ℚ) (a : TokenizedAsset) : Bool :=
  match mopt with
  | none => true
  | some m => if m = 0 then true else decide (m ≤ a.available_quantity_kg)

/-- The entries of `ASSETS_DB` that `get_active_assets` keeps: status must
be `ACTIVE`, then the optional filters narrow the list.  (The haversine
location filter, which only further narrows the list, is not modelled.) -/
def activeAssetEntries (s : ExchangeState) (copt : Option String)
    (gopt : Option QualityGrade) (mpopt mqopt : Option ℚ) : Db TokenizedAsset :=
  ((((s.assets.filter (fun p => p.2.status == AssetStatus.active)).filter
      (fun p => matchesCrop copt p.2)).filter
      (fun p => matchesGrade gopt p.2)).filter
      (fun p => matchesMaxPrice mpopt p.2)).filter
      (fun p => matchesMinQty mqopt p.2)

/-- `GET /assets/active`: the returned asset objects. -/
def get_active_assets (s : ExchangeState) (copt : Option String)
    (gopt : Option QualityGrade) (mpopt mqopt : Option ℚ) : List TokenizedAsset :=
  (activeAssetEntries s copt gopt mpopt mqopt).map (fun p => p.2)

structure TxCreateArgs where
  asset_id : ℕ
  buyer_id : String
  quantity_kg : ℚ
  delivery_address : Option String
  expected_delivery_days : ℤ
deriving DecidableEq, Repr

def create_escrow_transaction (args : TxCreateArgs) (now : ℤ) (s : ExchangeState) :
    Except ApiError (ℕ × EscrowTransaction) × ExchangeState :=
  match dbGet s.assets args.asset_id with
  | none => (.error .assetNotFound, s)
  | some a =>
    if a.status ≠ AssetStatus.active then (.error .assetNotAvailable, s)
    else if a.available_quantity_kg < args.quantity_kg then (.error .insufficientQuantity, s)
    else
      let total := args.quantity_kg * a.unit_price_kes
      let fee := total * (2 / 100)
      let payout := total - fee
      let t : EscrowTransaction := {
        asset_id := args.asset_id
        seller_id := a.seller_id
        buyer_id := args.buyer_id
        quantity_kg := args.quantity_kg
        agreed_price_per_kg := a.unit_price_kes
        total_amount_kes := total
        funds_escrowed_at := none
        funds_locked := false
        expected_delivery_date := now + args.expected_delivery_days * 24
        delivery_proof_images := []
        delivery_proof_submitted_at := none
        delivery_qr_code := none
        digital_signature := none
        acceptance_window_hours := 48
        acceptance_window_start := none
        acceptance_window_end := none
        buyer_accepted := false
        buyer_acceptance_date := none
        status := TransactionStatus.pending
        completed_at := none
        seller_payout_amount := payout
        platform_fee_kes := fee }
      let newAvail := a.available_quantity_kg - args.quantity_kg
      let a2 := { a with
        available_quantity_kg := newAvail
        status := if newAvail ≤ 0 then AssetStatus.in_escrow else a.status }
      (.ok (s.nextId, t),
        { s with
          assets := dbSet s.assets args.asset_id a2
          txns := dbSet s.txns s.nextId t
          nextId := s.nextId + 1 })

def escrow_funds (tid : ℕ) (now : ℤ) (s : ExchangeState) :
    Except ApiError ℚ × ExchangeState :=
  match dbGet s.txns tid with
  | none => (.error .transactionNotFound, s)
  | some t =>
    if t.funds_locked then (.error .fundsAlreadyEscrowed, s)
    else
      let t2 := { t with
        funds_locked := true
        funds_escrowed_at := some now
        status := TransactionStatus.funds_escrowed }
      let s2 := { s with txns := dbSet s.txns tid t2 }
      match dbGet s2.assets t.asset_id with
      | none => (.error .internalKeyError, s2)
      | some a =>
        (.ok t.total_amount_kes,
          { s2 with assets := dbSet s2.assets t.asset_id { a with status := AssetStatus.in_escrow } })

/-- `submit_delivery_proof` only checks `funds_locked`, not the status; the
Python code first sets `DELIVERY_PROOF_SUBMITTED` and immediately overwrites
it with `IN_ACCEPTANCE_WINDOW`, so the stored status is the latter. -/
def submit_delivery_proof (tid : ℕ) (imgs : List String)
    (sig qr : Option String) (now : ℤ) (s : ExchangeState) :
    Except ApiError ℤ × ExchangeState :=
  match dbGet s.txns tid with
  | none => (.error .transactionNotFound, s)
  | some t =>
    if t.funds_locked = false then (.error .fundsNotEscrowed, s)
    else
      let t2 := { t with
        delivery_proof_images := imgs
        digital_signature := sig
        delivery_qr_code := qr
        delivery_proof_submitted_at := some now
        acceptance_window_start := some now
        acceptance_window_end := some (now + t.acceptance_window_hours)
        status := TransactionStatus.in_acceptance_window }
      (.ok (now + t.acceptance_window_hours), { s with txns := dbSet s.txns tid t2 })

def buyer_accept_delivery (tid : ℕ) (buyer_id : String) (now : ℤ) (s : ExchangeState) :
    Except ApiError ℚ × ExchangeState :=
  match dbGet s.txns tid with
  | none => (.error .transactionNotFound, s)
  | some t =>
    if t.buyer_id ≠ buyer_id then (.error .unauthorizedBuyer, s)
    else if t.status ≠ TransactionStatus.in_acceptance_window then (.error .notInAcceptanceWindow, s)
    else
      let t2 := { t with
        buyer_accepted := true
        buyer_acceptance_date := some now
        status := TransactionStatus.completed
        completed_at := some now }
      let s2 := { s with txns := dbSet s.txns tid t2 }
      match dbGet s2.assets t.asset_id with
      | none => (.error .internalKeyError, s2)
      | some a =>
        let a2 := { a with
          status := if a.available_quantity_kg ≤ 0 then AssetStatus.sold else AssetStatus.active }
        (.ok t.seller_payout_amount,
          { s2 with assets := dbSet s2.assets t.asset_id a2 })

def auto_release_on_expiry (tid : ℕ) (now : ℤ) (s : ExchangeState) :
    Except ApiError ℚ × ExchangeState :=
  match dbGet s.txns tid with
  | none => (.error .transactionNotFound, s)
  | some t =>
    if t.status ≠ TransactionStatus.in_acceptance_window then (.error .notInAcceptanceWindow, s)
    else
      match t.acceptance_window_end with
      | none => (.error .internalKeyError, s)
      | some endT =>
        if now < endT then (.error .windowNotExpired, s)
        else
          let t2 := { t with
            status := TransactionStatus.completed
            completed_at := some now
            buyer_accepted := true }
          let s2 := { s with txns := dbSet s.txns tid t2 }
          match dbGet s2.assets t.asset_id with
          | none => (.error .internalKeyError, s2)
          | some a =>
            let a2 := { a with
              status := if a.available_quantity_kg ≤ 0 then AssetStatus.sold else AssetStatus.active }
            (.ok t.seller_payout_amount,
              { s2 with assets := dbSet s2.assets t.asset_id a2 })

structure DisputeCreateArgs where
  raised_by : String
  raised_by_user_id : String
  dispute_reason : String
  dispute_category : String
  description : String
  evidence_images : List String
deriving DecidableEq, Repr

/-- `create_dispute` performs no transaction-state check at all: any
existing transaction can be disputed. -/
def create_dispute (tid : ℕ) (args : DisputeCreateArgs) (s : ExchangeState) :
    Except ApiError (ℕ × DisputeCase) × ExchangeState :=
  match dbGet s.txns tid with
  | none => (.error .transactionNotFound, s)
  | some t =>
    match dbGet s.assets t.asset_id with
    | none => (.error .internalKeyError, s)
    | some a =>
      let d : DisputeCase := {
        transaction_id := tid
        raised_by := args.raised_by
        raised_by_user_id := args.raised_by_user_id
        dispute_reason := args.dispute_reason
        dispute_category := args.dispute_category
        description := args.description
        evidence_images := args.evidence_images
        pre_harvest_health_score := a.ai_verification.harvest_health_score
        spoilage_risk_at_sale := some a.ai_verification.spoilage_risk_score
        status := DisputeStatus.opened
        assigned_arbitrator_id := none
        arbitrator_name := none
        arbitration_notes := none
        resolution := none
        refund_amount_kes := 0
        resolved_at := none }
      let t2 := { t with status := TransactionStatus.disputed }
      (.ok (s.nextId, d),
        { s with
          txns := dbSet s.txns tid t2
          disputes := dbSet s.disputes s.nextId d
          nextId := s.nextId + 1 })

def assign_arbitrator (did : ℕ) (arb_id arb_name : String) (s : ExchangeState) :
    Except ApiError Unit × ExchangeState :=
  match dbGet s.disputes did with
  | none => (.error .disputeNotFound, s)
  | some d =>
    let d2 := { d with
      assigned_arbitrator_id := some arb_id
      arbitrator_name := some arb_name
      status := DisputeStatus.under_review }
    (.ok (), { s with disputes := dbSet s.disputes did d2 })

/-- The JSON payload `resolve_dispute` returns. -/
structure ResolveOutput where
  resolution : String
  refund_amount_kes : ℚ
  seller_payout_kes : ℚ
deriving DecidableEq, Repr

/-- `resolve_dispute` has no resolved-already guard; the `refund_percentage
== 0` and remaining branches of the Python `if/elif/else` are identical, so
they are modelled as one `else`.  With `refund_percentage == 100` the stored
`seller_payout_amount` is left untouched and no asset quantity is
restored. -/
def resolve_dispute (did : ℕ) (arbitrator_id resolution : String)
    (refund_percentage : ℚ) (notes : String) (now : ℤ) (s : ExchangeState) :
    Except ApiError ResolveOutput × ExchangeState :=
  match dbGet s.disputes did with
  | none => (.error .disputeNotFound, s)
  | some d =>
    if d.assigned_arbitrator_id ≠ some arbitrator_id then (.error .unauthorizedArbitrator, s)
    else
      match dbGet s.txns d.transaction_id with
      | none => (.error .internalKeyError, s)
      | some t =>
        let refund := t.total_amount_kes * (refund_percentage / 100)
        let payout := t.total_amount_kes - refund - t.platform_fee_kes
        let d2 := { d with
          resolution := some resolution
          refund_amount_kes := refund
          arbitration_notes := some notes
          status := DisputeStatus.resolved
          resolved_at := some now }
        let t2 :=
          if refund_percentage = 100 then
            { t with status := TransactionStatus.refunded, completed_at := some now }
          else
            { t with
              status := TransactionStatus.completed
              seller_payout_amount := payout
              completed_at := some now }
        (.ok { resolution := resolution, refund_amount_kes := refund, seller_payout_kes := payout },
          { s with
            disputes := dbSet s.disputes did d2
            txns := dbSet s.txns d.transaction_id t2 })

/-! ## Traces of API calls -/

/-- One API call, with the arguments (and the wall-clock instant of the
`datetime.now()` calls) it is made with. -/
inductive Op where
  | createAsset (args : AssetCreateArgs)
  | publishAsset (aid : ℕ) (expires_in_days now : ℤ)
  | createTx (args : TxCreateArgs) (now : ℤ)
  | escrowFunds (tid : ℕ) (now : ℤ)
  | submitProof (tid : ℕ) (imgs : List String) (sig qr : Option String) (now : ℤ)
  | buyerAccept (tid : ℕ) (buyer_id : String) (now : ℤ)
  | autoRelease (tid : ℕ) (now : ℤ)
  | openDispute (tid : ℕ) (args : DisputeCreateArgs)
  | assignArb (did : ℕ) (arb_id arb_name : String)
  | resolveDispute (did : ℕ) (arb_id resolution : String) (pct : ℚ) (notes : String) (now : ℤ)
deriving DecidableEq, Repr

/-- Run one call, erasing its payload to `Unit` (the state transition and
the success/error outcome of every handler). -/
def stepRun (o : Op) (s : ExchangeState) : Except ApiError Unit × ExchangeState :=
  match o with
  | .createAsset args =>
    let r := create_asset_listing args s
    (r.1.map (fun _ => ()), r.2)
  | .publishAsset aid days now =>
    let r := publish_asset aid days now s
    (r.1.map (fun _ => ()), r.2)
  | .createTx args now =>
    let r := create_escrow_transaction args now s
    (r.1.map (fun _ => ()), r.2)
  | .escrowFunds tid now =>
    let r := escrow_funds tid now s
    (r.1.map (fun _ => ()), r.2)
  | .submitProof tid imgs sig qr now =>
    let r := submit_delivery_proof tid imgs sig qr now s
    (r.1.map (fun _ => ()), r.2)
  | .buyerAccept tid b now =>
    let r := buyer_accept_delivery tid b now s
    (r.1.map (fun _ => ()), r.2)
  | .autoRelease tid now =>
    let r := auto_release_on_expiry tid now s
    (r.1.map (fun _ => ()), r.2)
  | .openDispute tid args =>
    let r := create_dispute tid args s
    (r.1.map (fun _ => ()), r.2)
  | .assignArb did a n =>
    let r := assign_arbitrator did a n s
    (r.1.map (fun _ => ()), r.2)
  | .resolveDispute did a res pct notes now =>
    let r := resolve_dispute did a res pct notes now s
    (r.1.map (fun _ => ()), r.2)

def stepState (o : Op) (s : ExchangeState) : ExchangeState := (stepRun o s).2

def execFrom (s : ExchangeState) (ops : List Op) : ExchangeState :=
  ops.foldl (fun s o => stepState o s) s

def execOps (ops : List Op) : ExchangeState := execFrom initState ops

/-- Requested quantities are nonnegative (Python floats are unconstrained;
the conservation property is stated for traces that do not request
negative amounts). -/
def goodOpB : Op → Bool
  | .createAsset args => decide (0 ≤ args.quantity_kg)
  | .createTx args _ => decide (0 ≤ args.quantity_kg)
  | _ => true

def goodOps (ops : List Op) : Prop := ∀ o ∈ ops, goodOpB o = true

instance : DecidablePred goodOps := fun ops =>
  inferInstanceAs (Decidable (∀ o ∈ ops, goodOpB o = true))

/-- A state the server can actually be in after a sequence of calls that
request only nonnegative quantities. -/
def ReachableGood (s : ExchangeState) : Prop :=
  ∃ ops : List Op, goodOps ops ∧ execOps ops = s

/-! ## Association-list lemmas -/

theorem dbGet_some_mem {db : Db α} {k : ℕ} {v : α} (h : dbGet db k = some v) :
    (k, v) ∈ db := by
  induction db with
  | nil => simp [dbGet] at h
  | cons q db ih =>
    rw [dbGet] at h
    by_cases hq : q.1 = k
    · rw [if_pos hq] at h
      have hqe : q = (k, v) := by
        cases q with
        | mk a b =>
          simp only at hq h
          injection h with h2
          rw [hq, h2]
      rw [hqe]
      exact List.mem_cons_self _ _
    · rw [if_neg hq] at h
      exact List.mem_cons_of_mem _ (ih h)

theorem dbGet_eq_none_iff {db : Db α} {k : ℕ} :
    dbGet db k = none ↔ k ∉ db.map Prod.fst := by
  induction db with
  | nil => simp [dbGet]
  | cons q db ih =>
    rw [dbGet]
    by_cases hq : q.1 = k
    · simp [if_pos hq, hq]
    · simp only [if_neg hq, List.map_cons, List.mem_cons, not_or, ih]
      constructor
      · intro h; exact ⟨fun hh => hq hh.symm, h⟩
      · intro h; exact h.2

theorem dbHasKey_iff {db : Db α} {k : ℕ} :
    dbHasKey db k = true ↔ k ∈ db.map Prod.fst := by
  induction db with
  | nil => simp [dbHasKey]
  | cons q db ih =>
    rw [dbHasKey]
    simp only [Bool.or_eq_true, beq_iff_eq, List.map_cons, List.mem_cons, ih]
    constructor
    · rintro (h | h)
      · exact Or.inl h.symm
      · exact Or.inr h
    · rintro (h | h)
      · exact Or.inl h.symm
      · exact Or.inr h

theorem dbGet_some_hasKey {db : Db α} {k : ℕ} {v : α} (h : dbGet db k = some v) :
    dbHasKey db k = true :=
  dbHasKey_iff.mpr (List.mem_map.mpr ⟨(k, v), dbGet_some_mem h, rfl⟩)

theorem dbHasKey_false_get_none {db : Db α} {k : ℕ} (h : dbHasKey db k = false) :
    dbGet db k = none := by
  rw [dbGet_eq_none_iff]
  intro hm
  rw [dbHasKey_iff.mpr hm] at h
  exact Bool.true_eq_false.mp h

theorem map_replace_of_not_mem {db : Db α} {k : ℕ} {v : α}
    (h : k ∉ db.map Prod.fst) :
    db.map (fun p => if p.1 == k then (k, v) else p) = db := by
  induction db with
  | nil => rfl
  | cons q db ih =>
    simp only [List.map_cons, List.mem_cons, not_or] at h
    have hq : ¬ (q.1 == k) = true := by
      simp only [beq_iff_eq]
      intro hqk; exact h.1 hqk.symm
    simp only [List.map_cons, if_neg hq]
    rw [ih h.2]

theorem dbGet_map_replace_self {db : Db α} {k : ℕ} {v : α}
    (h : k ∈ db.map Prod.fst) :
    dbGet (db.map (fun p => if p.1 == k then (k, v) else p)) k = some v := by
  induction db with
  | nil => simp at h
  | cons q db ih =>
    by_cases hq : q.1 = k
    · simp only [List.map_cons, if_pos (show (q.1 == k) = true by simpa using hq)]
      rw [dbGet, if_pos rfl]
    · have hh : k ∈ db.map Prod.fst := by
        simp only [List.map_cons, List.mem_cons] at h
        rcases h with h | h
        · exact absurd h.symm hq
        · exact h
      simp only [List.map_cons, if_neg (show ¬ (q.1 == k) = true by simpa using hq)]
      rw [dbGet, if_neg hq]
      exact ih hh

theorem dbGet_append_single_self {db : Db α} {k : ℕ} {v : α}
    (h : dbGet db k = none) :
    dbGet (db ++ [(k, v)]) k = some v := by
  induction db with
  | nil => simp [dbGet]
  | cons q db ih =>
    rw [dbGet] at h
    by_cases hq : q.1 = k
    · rw [if_pos hq] at h; exact absurd h (by simp)
    · rw [if_neg hq] at h
      rw [List.cons_append, dbGet, if_neg hq]
      exact ih h

theorem dbGet_dbSet_self (db : Db α) (k : ℕ) (v : α) :
    dbGet (dbSet db k v) k = some v := by
  unfold dbSet
  by_cases h : dbHasKey db k = true
  · rw [if_pos h]
    exact dbGet_map_replace_self (dbHasKey_iff.mp h)
  · rw [if_neg h]
    exact dbGet_append_single_self
      (dbHasKey_false_get_none (Bool.not_eq_true _ ▸ (by simpa using h)))

theorem dbGet_map_replace_ne (db : Db α) (k j : ℕ) (v : α) (h : j ≠ k) :
    dbGet (db.map (fun p => if p.1 == k then (k, v) else p)) j = dbGet db j := by
  induction db with
  | nil => rfl
  | cons q db ih =>
    by_cases hq : q.1 = k
    · simp only [List.map_cons, if_pos (show (q.1 == k) = true by simpa using hq)]
      rw [dbGet, dbGet, if_neg (by simpa using Ne.symm h), if_neg (hq ▸ (Ne.symm h))]
      exact ih
    · simp only [List.map_cons, if_neg (show ¬ (q.1 == k) = true by simpa using hq)]
      rw [dbGet, dbGet]
      by_cases hqj : q.1 = j
      · rw [if_pos hqj, if_pos hqj]
      · rw [if_neg hqj, if_neg hqj]
        exact ih

theorem dbGet_append_single_ne (db : Db α) (k j : ℕ) (v : α) (h : j ≠ k) :
    dbGet (db ++ [(k, v)]) j = dbGet db j := by
  induction db with
  | nil => simp [dbGet, Ne.symm h]
  | cons q db ih =>
    rw [List.cons_append, dbGet, dbGet]
    by_cases hqj : q.1 = j
    · rw [if_pos hqj, if_pos hqj]
    · rw [if_neg hqj, if_neg hqj]
      exact ih

theorem dbGet_dbSet_ne (db : Db α) (k j : ℕ) (v : α) (h : j ≠ k) :
    dbGet (dbSet db k v) j = dbGet db j := by
  unfold dbSet
  by_cases hk : dbHasKey db k = true
  · rw [if_pos hk]
    exact dbGet_map_replace_ne db k j v h
  · rw [if_neg hk]
    exact dbGet_append_single_ne db k j v h

theorem mem_dbSet {db : Db α} {k : ℕ} {v : α} {p : ℕ × α}
    (h : p ∈ dbSet db k v) : p ∈ db ∨ p = (k, v) := by
  unfold dbSet at h
  by_cases hk : dbHasKey db k = true
  · rw [if_pos hk] at h
    rcases List.mem_map.mp h with ⟨q, hq, hqe⟩
    by_cases hq1 : q.1 = k
    · right; rw [← hqe, if_pos (show (q.1 == k) = true by simpa using hq1)]
    · left; rw [← hqe, if_neg (show ¬ (q.1 == k) = true by simpa using hq1)]; exact hq
  · rw [if_neg hk] at h
    rcases List.mem_append.mp h with h | h
    · exact Or.inl h
    · exact Or.inr (by simpa using h)

theorem mem_dbSet_key_eq {db : Db α} {k : ℕ} {v : α} {p : ℕ × α}
    (h : p ∈ dbSet db k v) (hp : p.1 = k) : p = (k, v) := by
  unfold dbSet at h
  by_cases hk : dbHasKey db k = true
  · rw [if_pos hk] at h
    rcases List.mem_map.mp h with ⟨q, hq, hqe⟩
    by_cases hq1 : q.1 = k
    · rw [← hqe, if_pos (show (q.1 == k) = true by simpa using hq1)]
    · exfalso
      rw [← hqe, if_neg (show ¬ (q.1 == k) = true by simpa using hq1)] at hp
      exact hq1 hp
  · rw [if_neg hk] at h
    rcases List.mem_append.mp h with h | h
    · exfalso
      exact absurd (dbHasKey_iff.mpr (List.mem_map.mpr ⟨p, h, hp⟩)) (by simpa using hk)
    · simpa using h

theorem keys_map_replace (db : Db α) (k : ℕ) (v : α) :
    (db.map (fun p => if p.1 == k then (k, v) else p)).map Prod.fst
      = db.map Prod.fst := by
  rw [List.map_map]
  apply List.map_congr_left
  intro p _
  by_cases hp : p.1 = k
  · simp only [Function.comp_apply, if_pos (show (p.1 == k) = true by simpa using hp)]
    exact hp.symm
  · simp only [Function.comp_apply, if_neg (show ¬ (p.1 == k) = true by simpa using hp)]

theorem keys_dbSet_hasKey (db : Db α) (k : ℕ) (v : α) (h : dbHasKey db k = true) :
    (dbSet db k v).map Prod.fst = db.map Prod.fst := by
  unfold dbSet
  rw [if_pos h]
  exact keys_map_replace db k v

theorem keys_dbSet_fresh (db : Db α) (k : ℕ) (v : α) (h : dbHasKey db k = false) :
    (dbSet db k v).map Prod.fst = db.map Prod.fst ++ [k] := by
  unfold dbSet
  rw [if_neg (by simp [h])]
  simp

/-! ## Reservation bookkeeping -/

/-- How much of asset `aid` one stored transaction accounts for. -/
def txWeight (aid : ℕ) (t : EscrowTransaction) : ℚ :=
  if t.asset_id = aid then t.quantity_kg else 0

/-- Total quantity of asset `aid` held by stored transactions
(refunded ones included: the code never restores quantity). -/
def txSum (aid : ℕ) (db : Db EscrowTransaction) : ℚ :=
  (db.map (fun p => txWeight aid p.2)).sum

/-- Total quantity of asset `aid` held by transactions that are not
refunded — the quantity the spec calls "active reservations". -/
def activeTxSum (aid : ℕ) (db : Db EscrowTransaction) : ℚ :=
  (db.map (fun p =>
    if p.2.status ≠ TransactionStatus.refunded then txWeight aid p.2 else 0)).sum

theorem txSum_nil (aid : ℕ) : txSum aid [] = 0 := rfl

theorem txSum_append (aid : ℕ) (db : Db EscrowTransaction) (k : ℕ)
    (t : EscrowTransaction) :
    txSum aid (db ++ [(k, t)]) = txSum aid db + txWeight aid t := by
  unfold txSum
  rw [List.map_append, List.sum_append]
  simp

theorem txSum_nonneg (aid : ℕ) (db : Db EscrowTransaction)
    (h : ∀ p ∈ db, 0 ≤ p.2.quantity_kg) : 0 ≤ txSum aid db := by
  unfold txSum
  apply List.sum_nonneg
  intro x hx
  rcases List.mem_map.mp hx with ⟨p, hp, hpx⟩
  rw [← hpx]
  unfold txWeight
  by_cases hc : p.2.asset_id = aid
  · rw [if_pos hc]; exact h p hp
  · rw [if_neg hc]

theorem txSum_eq_zero_of_no_ref (aid : ℕ) (db : Db EscrowTransaction)
    (h : ∀ p ∈ db, p.2.asset_id ≠ aid) : txSum aid db = 0 := by
  unfold txSum
  apply List.sum_eq_zero
  intro x hx
  rcases List.mem_map.mp hx with ⟨p, hp, hpx⟩
  rw [← hpx]
  unfold txWeight
  rw [if_neg (h p hp)]

/-- Replacing the (unique) entry at `k` by a transaction with the same
asset reference and quantity does not change any reservation total. -/
theorem txSum_dbSet_same_weight (aid : ℕ) (db : Db EscrowTransaction)
    (k : ℕ) (t t2 : EscrowTransaction)
    (hN : (db.map Prod.fst).Nodup)
    (hget : dbGet db k = some t)
    (hasset : t2.asset_id = t.asset_id)
    (hqty : t2.quantity_kg = t.quantity_kg) :
    txSum aid (dbSet db k t2) = txSum aid db := by
  unfold dbSet
  rw [if_pos (dbGet_some_hasKey hget)]
  induction db with
  | nil => simp [dbGet] at hget
  | cons q db ih =>
    rw [dbGet] at hget
    by_cases hq : q.1 = k
    · rw [if_pos hq] at hget
      injection hget with hget
      have hknotin : k ∉ db.map Prod.fst := by
        rw [List.map_cons, List.nodup_cons] at hN
        rw [← hq]; exact hN.1
      simp only [List.map_cons, if_pos (show (q.1 == k) = true by simpa using hq)]
      rw [map_replace_of_not_mem hknotin]
      unfold txSum
      simp only [List.map_cons, List.sum_cons]
      have : txWeight aid t2 = txWeight aid q.2 := by
        unfold txWeight
        rw [← hget] at hasset hqty
        rw [hasset, hqty]
      rw [this]
    · rw [if_neg hq] at hget
      have hN2 : (db.map Prod.fst).Nodup := by
        rw [List.map_cons, List.nodup_cons] at hN
        exact hN.2
      simp only [List.map_cons, if_neg (show ¬ (q.1 == k) = true by simpa using hq)]
      unfold txSum
      simp only [List.map_cons, List.sum_cons]
      have := ih hN2 hget
      unfold txSum at this
      rw [this]

/-! ## Invariants preserved by every handler -/

/-- Every stored id was drawn from the counter. -/
def KeysBound (s : ExchangeState) : Prop :=
  (∀ p ∈ s.assets, p.1 < s.nextId) ∧
  (∀ p ∈ s.txns, p.1 < s.nextId) ∧
  (∀ p ∈ s.disputes, p.1 < s.nextId)

def NodupKeys (s : ExchangeState) : Prop :=
  (s.assets.map Prod.fst).Nodup ∧
  (s.txns.map Prod.fst).Nodup ∧
  (s.disputes.map Prod.fst).Nodup

/-- Foreign keys dangle nowhere: transactions reference stored assets,
disputes reference stored transactions. -/
def RefsOk (s : ExchangeState) : Prop :=
  (∀ p ∈ s.txns, (dbGet s.assets p.2.asset_id).isSome = true) ∧
  (∀ p ∈ s.disputes, (dbGet s.txns p.2.transaction_id).isSome = true)

def TxQtyNonneg (s : ExchangeState) : Prop :=
  ∀ p ∈ s.txns, 0 ≤ p.2.quantity_kg

/-- The ledger conservation law: available quantity is never negative and,
together with the quantity held by the asset's stored transactions, always
equals the originally listed quantity. -/
def AssetConserved (s : ExchangeState) : Prop :=
  ∀ p ∈ s.assets,
    0 ≤ p.2.available_quantity_kg ∧
    p.2.available_quantity_kg + txSum p.1 s.txns = p.2.quantity_kg

def Inv (s : ExchangeState) : Prop :=
  KeysBound s ∧ NodupKeys s ∧ RefsOk s ∧ TxQtyNonneg s ∧ AssetConserved s

theorem Inv_init : Inv initState := by
  simp [Inv, KeysBound, NodupKeys, RefsOk, TxQtyNonneg, AssetConserved, initState]

theorem fresh_not_hasKey {db : Db α} {n : ℕ} (h : ∀ p ∈ db, p.1 < n) :
    dbHasKey db n = false := by
  by_contra hc
  have : dbHasKey db n = true := by
    cases hck : dbHasKey db n with
    | false => exact absurd hck hc
    | true => rfl
  rcases List.mem_map.mp (dbHasKey_iff.mp this) with ⟨p, hp, hpk⟩
  exact absurd (hpk ▸ h p hp) (lt_irrefl n)

theorem dbSet_fresh_eq {db : Db α} {k : ℕ} (v : α) (h : dbHasKey db k = false) :
    dbSet db k v = db ++ [(k, v)] := by
  unfold dbSet
  rw [if_neg (by simp [h])]

theorem dbGet_isSome_key_lt {db : Db α} {k n : ℕ}
    (hb : ∀ p ∈ db, p.1 < n) (h : (dbGet db k).isSome = true) : k < n := by
  rcases Option.isSome_iff_exists.mp h with ⟨v, hv⟩
  exact hb (k, v) (dbGet_some_mem hv)

theorem nodup_keys_append_fresh {db : Db α} {n : ℕ}
    (hN : (db.map Prod.fst).Nodup) (hb : ∀ p ∈ db, p.1 < n) :
    ((db ++ [(n, v)]).map Prod.fst).Nodup := by
  rw [List.map_append]
  rw [List.nodup_append]
  refine ⟨hN, List.nodup_singleton n, ?_⟩
  intro j hj hj2
  rcases List.mem_map.mp hj with ⟨p, hp, hpk⟩
  have hjn : j = n := by simpa using hj2
  have hlt : p.1 < n := hb p hp
  rw [hpk, hjn] at hlt
  exact absurd hlt (lt_irrefl n)

/-- Replacing a stored transaction by one with the same asset reference and
quantity preserves every invariant (this covers all the status-only
transaction updates of the handlers). -/
theorem Inv_txns_dbSet (s : ExchangeState) (hInv : Inv s) (tid : ℕ)
    (t t2 : EscrowTransaction)
    (hget : dbGet s.txns tid = some t)
    (ht2a : t2.asset_id = t.asset_id) (ht2q : t2.quantity_kg = t.quantity_kg) :
    Inv { s with txns := dbSet s.txns tid t2 } := by
  obtain ⟨⟨hbA, hbT, hbD⟩, ⟨hnA, hnT, hnD⟩, ⟨hrT, hrD⟩, hq, hc⟩ := hInv
  have hmem : (tid, t) ∈ s.txns := dbGet_some_mem hget
  refine ⟨⟨hbA, ?_, hbD⟩, ⟨hnA, ?_, hnD⟩, ⟨?_, ?_⟩, ?_, ?_⟩
  · intro p hp
    rcases mem_dbSet hp with hp | hp
    · exact hbT p hp
    · rw [hp]; exact hbT (tid, t) hmem
  · rw [keys_dbSet_hasKey _ _ _ (dbGet_some_hasKey hget)]
    exact hnT
  · intro p hp
    rcases mem_dbSet hp with hp | hp
    · exact hrT p hp
    · rw [hp]
      simp only
      rw [ht2a]
      exact hrT (tid, t) hmem
  · intro p hp
    simp only
    by_cases hcase : p.2.transaction_id = tid
    · rw [hcase, dbGet_dbSet_self]; rfl
    · rw [dbGet_dbSet_ne _ _ _ _ hcase]
      exact hrD p hp
  · intro p hp
    rcases mem_dbSet hp with hp | hp
    · exact hq p hp
    · rw [hp]
      simp only
      rw [ht2q]
      exact hq (tid, t) hmem
  · intro p hp
    simp only
    rw [txSum_dbSet_same_weight _ _ _ _ _ hnT hget ht2a ht2q]
    exact hc p hp

/-- Replacing a stored asset by one with the same available and original
quantity preserves every invariant (covers all status-only asset
updates). -/
theorem Inv_assets_dbSet (s : ExchangeState) (hInv : Inv s) (aid : ℕ)
    (a a2 : TokenizedAsset)
    (hget : dbGet s.assets aid = some a)
    (ha2v : a2.available_quantity_kg = a.available_quantity_kg)
    (ha2q : a2.quantity_kg = a.quantity_kg) :
    Inv { s with assets := dbSet s.assets aid a2 } := by
  obtain ⟨⟨hbA, hbT, hbD⟩, ⟨hnA, hnT, hnD⟩, ⟨hrT, hrD⟩, hq, hc⟩ := hInv
  have hmem : (aid, a) ∈ s.assets := dbGet_some_mem hget
  refine ⟨⟨?_, hbT, hbD⟩, ⟨?_, hnT, hnD⟩, ⟨?_, hrD⟩, hq, ?_⟩
  · intro p hp
    rcases mem_dbSet hp with hp | hp
    · exact hbA p hp
    · rw [hp]; exact hbA (aid, a) hmem
  · rw [keys_dbSet_hasKey _ _ _ (dbGet_some_hasKey hget)]
    exact hnA
  · intro p hp
    simp only
    by_cases hcase : p.2.asset_id = aid
    · rw [hcase, dbGet_dbSet_self]; rfl
    · rw [dbGet_dbSet_ne _ _ _ _ hcase]
      exact hrT p hp
  · intro p hp
    rcases mem_dbSet hp with hp | hp
    · exact hc p hp
    · rw [hp]
      simp only
      rw [ha2v, ha2q]
      exact hc (aid, a) hmem

/-- Replacing a stored dispute by one with the same transaction reference
preserves every invariant. -/
theorem Inv_disputes_dbSet (s : ExchangeState) (hInv : Inv s) (did : ℕ)
    (d d2 : DisputeCase)
    (hget : dbGet s.disputes did = some d)
    (hd2 : d2.transaction_id = d.transaction_id) :
    Inv { s with disputes := dbSet s.disputes did d2 } := by
  obtain ⟨⟨hbA, hbT, hbD⟩, ⟨hnA, hnT, hnD⟩, ⟨hrT, hrD⟩, hq, hc⟩ := hInv
  have hmem : (did, d) ∈ s.disputes := dbGet_some_mem hget
  refine ⟨⟨hbA, hbT, ?_⟩, ⟨hnA, hnT, ?_⟩, ⟨hrT, ?_⟩, hq, hc⟩
  · intro p hp
    rcases mem_dbSet hp with hp | hp
    · exact hbD p hp
    · rw [hp]; exact hbD (did, d) hmem
  · rw [keys_dbSet_hasKey _ _ _ (dbGet_some_hasKey hget)]
    exact hnD
  · intro p hp
    rcases mem_dbSet hp with hp | hp
    · exact hrD p hp
    · rw [hp]
      simp only
      rw [hd2]
      exact hrD (did, d) hmem

/-- Creating a fresh asset whose availability equals its nonnegative listed
quantity preserves every invariant. -/
theorem Inv_fresh_asset (s : ExchangeState) (hInv : Inv s) (a : TokenizedAsset)
    (hv : a.available_quantity_kg = a.quantity_kg) (hnn : 0 ≤ a.quantity_kg) :
    Inv { s with assets := dbSet s.assets s.nextId a, nextId := s.nextId + 1 } := by
  obtain ⟨⟨hbA, hbT, hbD⟩, ⟨hnA, hnT, hnD⟩, ⟨hrT, hrD⟩, hq, hc⟩ := hInv
  have hfresh : dbHasKey s.assets s.nextId = false := fresh_not_hasKey hbA
  rw [dbSet_fresh_eq a hfresh]
  refine ⟨⟨?_, ?_, ?_⟩, ⟨?_, hnT, hnD⟩, ⟨?_, hrD⟩, hq, ?_⟩
  · intro p hp
    rcases List.mem_append.mp hp with hp | hp
    · exact Nat.lt_succ_of_lt (hbA p hp)
    · simp only [List.mem_singleton] at hp
      rw [hp]; exact Nat.lt_succ_self _
  · intro p hp; exact Nat.lt_succ_of_lt (hbT p hp)
  · intro p hp; exact Nat.lt_succ_of_lt (hbD p hp)
  · exact nodup_keys_append_fresh hnA hbA
  · intro p hp
    simp only
    have hlt : p.2.asset_id < s.nextId := dbGet_isSome_key_lt hbA (hrT p hp)
    rw [dbGet_append_single_ne _ _ _ _ (Nat.ne_of_lt hlt)]
    exact hrT p hp
  · intro p hp
    rcases List.mem_append.mp hp with hp | hp
    · exact hc p hp
    · simp only [List.mem_singleton] at hp
      rw [hp]
      simp only
      have hzero : txSum s.nextId s.txns = 0 := by
        apply txSum_eq_zero_of_no_ref
        intro q hq2
        exact Nat.ne_of_lt (dbGet_isSome_key_lt hbA (hrT q hq2))
      rw [hzero, hv]
      exact ⟨hnn, by ring⟩

/-- The atomic check-and-decrement of `create_escrow_transaction`: reserve
`t.quantity_kg` of asset `aid` and append the fresh transaction. -/
theorem Inv_reserve (s : ExchangeState) (hInv : Inv s) (aid : ℕ)
    (a a2 : TokenizedAsset) (t : EscrowTransaction)
    (hget : dbGet s.assets aid = some a)
    (hta : t.asset_id = aid) (htq : 0 ≤ t.quantity_kg)
    (hle : t.quantity_kg ≤ a.available_quantity_kg)
    (ha2v : a2.available_quantity_kg = a.available_quantity_kg - t.quantity_kg)
    (ha2q : a2.quantity_kg = a.quantity_kg) :
    Inv { s with assets := dbSet s.assets aid a2,
                 txns := dbSet s.txns s.nextId t,
                 nextId := s.nextId + 1 } := by
  obtain ⟨⟨hbA, hbT, hbD⟩, ⟨hnA, hnT, hnD⟩, ⟨hrT, hrD⟩, hq, hc⟩ := hInv
  have hmemA : (aid, a) ∈ s.assets := dbGet_some_mem hget
  have hfreshT : dbHasKey s.txns s.nextId = false := fresh_not_hasKey hbT
  rw [dbSet_fresh_eq t hfreshT]
  refine ⟨⟨?_, ?_, ?_⟩, ⟨?_, ?_, hnD⟩, ⟨?_, ?_⟩, ?_, ?_⟩
  · intro p hp
    rcases mem_dbSet hp with hp | hp
    · exact Nat.lt_succ_of_lt (hbA p hp)
    · rw [hp]; exact Nat.lt_succ_of_lt (hbA (aid, a) hmemA)
  · intro p hp
    rcases List.mem_append.mp hp with hp | hp
    · exact Nat.lt_succ_of_lt (hbT p hp)
    · simp only [List.mem_singleton] at hp
      rw [hp]; exact Nat.lt_succ_self _
  · intro p hp; exact Nat.lt_succ_of_lt (hbD p hp)
  · rw [keys_dbSet_hasKey _ _ _ (dbGet_some_hasKey hget)]
    exact hnA
  · exact nodup_keys_append_fresh hnT hbT
  · intro p hp
    simp only
    rcases List.mem_append.mp hp with hp | hp
    · by_cases hcase : p.2.asset_id = aid
      · rw [hcase, dbGet_dbSet_self]; rfl
      · rw [dbGet_dbSet_ne _ _ _ _ hcase]
        exact hrT p hp
    · simp only [List.mem_singleton] at hp
      rw [hp]
      simp only
      rw [hta, dbGet_dbSet_self]
      rfl
  · intro p hp
    simp only
    have hlt : p.2.transaction_id < s.nextId := dbGet_isSome_key_lt hbT (hrD p hp)
    rw [dbGet_append_single_ne _ _ _ _ (Nat.ne_of_lt hlt)]
    exact hrD p hp
  · intro p hp
    rcases List.mem_append.mp hp with hp | hp
    · exact hq p hp
    · simp only [List.mem_singleton] at hp
      rw [hp]
      exact htq
  · intro p hp
    simp only
    rw [txSum_append]
    by_cases hcase : p.1 = aid
    · have hp2 : p = (aid, a2) := mem_dbSet_key_eq hp hcase
      rw [hp2]
      simp only
      have hw : txWeight aid t = t.quantity_kg := by
        unfold txWeight; rw [if_pos hta]
      have hold := hc (aid, a) hmemA
      simp only at hold
      rw [hw, ha2v, ha2q]
      constructor
      · linarith
      · linarith [hold.2]
    · have hp1 : p ∈ s.assets := by
        rcases mem_dbSet hp with hp | hp
        · exact hp
        · exfalso; rw [hp] at hcase; exact hcase rfl
      have hw : txWeight p.1 t = 0 := by
        unfold txWeight
        rw [if_neg (by rw [hta]; exact fun hh => hcase hh.symm)]
      have hold := hc p hp1
      rw [hw]
      exact ⟨hold.1, by linarith [hold.2]⟩

/-- Opening a dispute: replace the transaction by a status-only update and
append the fresh dispute case. -/
theorem Inv_open_dispute (s : ExchangeState) (hInv : Inv s) (tid : ℕ)
    (t t2 : EscrowTransaction) (d : DisputeCase)
    (hget : dbGet s.txns tid = some t)
    (ht2a : t2.asset_id = t.asset_id) (ht2q : t2.quantity_kg = t.quantity_kg)
    (hd : d.transaction_id = tid) :
    Inv { s with txns := dbSet s.txns tid t2,
                 disputes := dbSet s.disputes s.nextId d,
                 nextId := s.nextId + 1 } := by
  obtain hInv2 := Inv_txns_dbSet s hInv tid t t2 hget ht2a ht2q
  obtain ⟨⟨hbA, hbT, hbD⟩, ⟨hnA, hnT, hnD⟩, ⟨hrT, hrD⟩, hq, hc⟩ := hInv2
  have hfreshD : dbHasKey s.disputes s.nextId = false :=
    fresh_not_hasKey (fun p hp => hbD p hp)
  rw [dbSet_fresh_eq d hfreshD]
  refine ⟨⟨?_, ?_, ?_⟩, ⟨hnA, hnT, ?_⟩, ⟨hrT, ?_⟩, hq, hc⟩
  · intro p hp; exact Nat.lt_succ_of_lt (hbA p hp)
  · intro p hp; exact Nat.lt_succ_of_lt (hbT p hp)
  · intro p hp
    rcases List.mem_append.mp hp with hp | hp
    · exact Nat.lt_succ_of_lt (hbD p hp)
    · simp only [List.mem_singleton] at hp
      rw [hp]; exact Nat.lt_succ_self _
  · exact nodup_keys_append_fresh hnD hbD
  · intro p hp
    rcases List.mem_append.mp hp with hp | hp
    · exact hrD p hp
    · simp only [List.mem_singleton] at hp
      rw [hp]
      simp only
      rw [hd, dbGet_dbSet_self]
      rfl

/-- Every handler preserves the invariants (for calls that request only
nonnegative quantities). -/
theorem Inv_step (o : Op) (s : ExchangeState) (hInv : Inv s)
    (hg : goodOpB o = true) : Inv (stepState o s) := by
  cases o with
  | createAsset args =>
    show Inv (create_asset_listing args s).2
    unfold create_asset_listing
    by_cases h : args.ai_verification.ai_confidence_score < 60
    · rw [if_pos h]; exact hInv
    · rw [if_neg h]
      exact Inv_fresh_asset s hInv _ rfl (of_decide_eq_true hg)
  | publishAsset aid days now =>
    show Inv (publish_asset aid days now s).2
    unfold publish_asset
    cases hget : dbGet s.assets aid with
    | none => simp only [hget]; exact hInv
    | some a =>
      simp only [hget]
      exact Inv_assets_dbSet s hInv aid a _ hget rfl rfl
  | createTx args now =>
    show Inv (create_escrow_transaction args now s).2
    unfold create_escrow_transaction
    cases hget : dbGet s.assets args.asset_id with
    | none => simp only [hget]; exact hInv
    | some a =>
      simp only [hget]
      by_cases hst : a.status ≠ AssetStatus.active
      · rw [if_pos hst]; exact hInv
      · rw [if_neg hst]
        by_cases hins : a.available_quantity_kg < args.quantity_kg
        · rw [if_pos hins]; exact hInv
        · rw [if_neg hins]
          exact Inv_reserve s hInv args.asset_id a _ _ hget rfl
            (of_decide_eq_true hg) (le_of_not_lt hins) rfl rfl
  | escrowFunds tid now =>
    show Inv (escrow_funds tid now s).2
    unfold escrow_funds
    cases hget : dbGet s.txns tid with
    | none => simp only [hget]; exact hInv
    | some t =>
      simp only [hget]
      cases hl : t.funds_locked with
      | true => simp only [hl, if_true]; exact hInv
      | false =>
        simp only [hl, Bool.false_eq_true, if_false]
        have hInv2 := Inv_txns_dbSet s hInv tid t
          { t with funds_locked := true, funds_escrowed_at := some now,
                   status := TransactionStatus.funds_escrowed } hget rfl rfl
        cases hga : dbGet s.assets t.asset_id with
        | none => simp only [hga]; exact hInv2
        | some a =>
          simp only [hga]
          exact Inv_assets_dbSet _ hInv2 t.asset_id a
            { a with status := AssetStatus.in_escrow } hga rfl rfl
  | submitProof tid imgs sig qr now =>
    show Inv (submit_delivery_proof tid imgs sig qr now s).2
    unfold submit_delivery_proof
    cases hget : dbGet s.txns tid with
    | none => simp only [hget]; exact hInv
    | some t =>
      simp only [hget]
      by_cases hl : t.funds_locked = false
      · rw [if_pos hl]; exact hInv
      · rw [if_neg hl]
        exact Inv_txns_dbSet s hInv tid t
          { t with delivery_proof_images := imgs, digital_signature := sig,
                   delivery_qr_code := qr, delivery_proof_submitted_at := some now,
                   acceptance_window_start := some now,
                   acceptance_window_end := some (now + t.acceptance_window_hours),
                   status := TransactionStatus.in_acceptance_window } hget rfl rfl
  | buyerAccept tid b now =>
    show Inv (buyer_accept_delivery tid b now s).2
    unfold buyer_accept_delivery
    cases hget : dbGet s.txns tid with
    | none => simp only [hget]; exact hInv
    | some t =>
      simp only [hget]
      by_cases hb : t.buyer_id ≠ b
      · rw [if_pos hb]; exact hInv
      · rw [if_neg hb]
        by_cases hst : t.status ≠ TransactionStatus.in_acceptance_window
        · rw [if_pos hst]; exact hInv
        · rw [if_neg hst]
          have hInv2 := Inv_txns_dbSet s hInv tid t
            { t with buyer_accepted := true, buyer_acceptance_date := some now,
                     status := TransactionStatus.completed,
                     completed_at := some now } hget rfl rfl
          cases hga : dbGet s.assets t.asset_id with
          | none => simp only [hga]; exact hInv2
          | some a =>
            simp only [hga]
            exact Inv_assets_dbSet _ hInv2 t.asset_id a
              { a with status :=
                  if a.available_quantity_kg ≤ 0 then AssetStatus.sold
                  else AssetStatus.active } hga rfl rfl
  | autoRelease tid now =>
    show Inv (auto_release_on_expiry tid now s).2
    unfold auto_release_on_expiry
    cases hget : dbGet s.txns tid with
    | none => simp only [hget]; exact hInv
    | some t =>
      simp only [hget]
      by_cases hst : t.status ≠ TransactionStatus.in_acceptance_window
      · rw [if_pos hst]; exact hInv
      · rw [if_neg hst]
        cases hend : t.acceptance_window_end with
        | none => simp only [hend]; exact hInv
        | some endT =>
          simp only [hend]
          by_cases hnow : now < endT
          · rw [if_pos hnow]; exact hInv
          · rw [if_neg hnow]
            have hInv2 := Inv_txns_dbSet s hInv tid t
              { t with acceptance_window_end := some endT,
                       status := TransactionStatus.completed,
                       completed_at := some now, buyer_accepted := true } hget rfl rfl
            cases hga : dbGet s.assets t.asset_id with
            | none => simp only [hga]; exact hInv2
            | some a =>
              simp only [hga]
              exact Inv_assets_dbSet _ hInv2 t.asset_id a
                { a with status :=
                    if a.available_quantity_kg ≤ 0 then AssetStatus.sold
                    else AssetStatus.active } hga rfl rfl
  | openDispute tid args =>
    show Inv (create_dispute tid args s).2
    unfold create_dispute
    cases hget : dbGet s.txns tid with
    | none => simp only [hget]; exact hInv
    | some t =>
      simp only [hget]
      cases hga : dbGet s.assets t.asset_id with
      | none => simp only [hga]; exact hInv
      | some a =>
        simp only [hga]
        exact Inv_open_dispute s hInv tid t _ _ hget rfl rfl rfl
  | assignArb did arb name =>
    show Inv (assign_arbitrator did arb name s).2
    unfold assign_arbitrator
    cases hget : dbGet s.disputes did with
    | none => simp only [hget]; exact hInv
    | some d =>
      simp only [hget]
      exact Inv_disputes_dbSet s hInv did d _ hget rfl
  | resolveDispute did arb res pct notes now =>
    show Inv (resolve_dispute did arb res pct notes now s).2
    unfold resolve_dispute
    cases hget : dbGet s.disputes did with
    | none => simp only [hget]; exact hInv
    | some d =>
      simp only [hget]
      by_cases harb : d.assigned_arbitrator_id ≠ some arb
      · rw [if_pos harb]; exact hInv
      · rw [if_neg harb]
        cases hgt : dbGet s.txns d.transaction_id with
        | none => simp only [hgt]; exact hInv
        | some t =>
          simp only [hgt]
          have hInv2 := Inv_disputes_dbSet s hInv did d
            { d with resolution := some res,
                     refund_amount_kes := t.total_amount_kes * (pct / 100),
                     arbitration_notes := some notes,
                     status := DisputeStatus.resolved,
                     resolved_at := some now } hget rfl
          by_cases hpct : pct = 100
          · rw [if_pos hpct]
            exact Inv_txns_dbSet _ hInv2 d.transaction_id t
              { t with status := TransactionStatus.refunded,
                       completed_at := some now } hgt rfl rfl
          · rw [if_neg hpct]
            exact Inv_txns_dbSet _ hInv2 d.transaction_id t
              { t with status := TransactionStatus.completed,
                       seller_payout_amount :=
                         t.total_amount_kes - t.total_amount_kes * (pct / 100) - t.platform_fee_kes,
                       completed_at := some now } hgt rfl rfl

theorem Inv_execFrom (ops : List Op) (s : ExchangeState) (hInv : Inv s)
    (hg : ∀ o ∈ ops, goodOpB o = true) : Inv (execFrom s ops) := by
  induction ops generalizing s with
  | nil => exact hInv
  | cons o ops ih =>
    have h1 : execFrom s (o :: ops) = execFrom (stepState o s) ops := by
      unfold execFrom
      rw [List.foldl_cons]
    rw [h1]
    exact ih (stepState o s)
      (Inv_step o s hInv (hg o (List.mem_cons_self o ops)))
      (fun o2 ho2 => hg o2 (List.mem_cons_of_mem o ho2))

theorem Inv_reachable {s : ExchangeState} (h : ReachableGood s) : Inv s := by
  rcases h with ⟨ops, hg, hex⟩
  rw [← hex]
  exact Inv_execFrom ops initState Inv_init hg

instance (s : ExchangeState) : Decidable (RefsOk s) :=
  inferInstanceAs (Decidable
    ((∀ p ∈ s.txns, (dbGet s.assets p.2.asset_id).isSome = true) ∧
     (∀ p ∈ s.disputes, (dbGet s.txns p.2.transaction_id).isSome = true)))

/-! ## Once locked, funds stay locked

`funds_locked` is only ever written by `escrow_funds`, which writes `true`
and refuses to run once it is `true`; every other handler copies the flag.
The lemmas below push this through arbitrary later calls. -/

theorem bound_dbSet_mem {db : Db α} {n j : ℕ} {v : α}
    (hb : ∀ p ∈ db, p.1 < n) (hj : j < n) :
    ∀ p ∈ dbSet db j v, p.1 < n := by
  intro p hp
  rcases mem_dbSet hp with hp | hp
  · exact hb p hp
  · rw [hp]; exact hj

theorem bound_succ {db : Db α} {n : ℕ} (hb : ∀ p ∈ db, p.1 < n) :
    ∀ p ∈ db, p.1 < n + 1 :=
  fun p hp => Nat.lt_succ_of_lt (hb p hp)

theorem bound_append_fresh {db : Db α} {n : ℕ} {v : α}
    (hb : ∀ p ∈ db, p.1 < n) :
    ∀ p ∈ db ++ [(n, v)], p.1 < n + 1 := by
  intro p hp
  rcases List.mem_append.mp hp with hp | hp
  · exact Nat.lt_succ_of_lt (hb p hp)
  · simp only [List.mem_singleton] at hp
    rw [hp]; exact Nat.lt_succ_self _

theorem locked_after_replace {db : Db EscrowTransaction} {tid j : ℕ}
    {t t' t2 : EscrowTransaction}
    (hget : dbGet db tid = some t) (hl : t.funds_locked = true)
    (hget' : dbGet db j = some t') (hpres : t2.funds_locked = t'.funds_locked) :
    ∃ x, dbGet (dbSet db j t2) tid = some x ∧ x.funds_locked = true := by
  by_cases hj : tid = j
  · subst hj
    refine ⟨t2, dbGet_dbSet_self _ _ _, ?_⟩
    rw [hget] at hget'
    injection hget' with hget'
    rw [hpres, ← hget', hl]
  · exact ⟨t, by rw [dbGet_dbSet_ne _ _ _ _ hj]; exact hget, hl⟩

theorem locked_after_append {db : Db EscrowTransaction} {tid n : ℕ}
    {t tnew : EscrowTransaction}
    (hb : ∀ p ∈ db, p.1 < n)
    (hget : dbGet db tid = some t) (hl : t.funds_locked = true) :
    ∃ x, dbGet (db ++ [(n, tnew)]) tid = some x ∧ x.funds_locked = true :=
  ⟨t, by
    rw [dbGet_append_single_ne _ _ _ _
      (Nat.ne_of_lt (hb (tid, t) (dbGet_some_mem hget)))]
    exact hget, hl⟩

/-- One step: the transaction-key bound is maintained and a locked
transaction stays present and locked. -/
theorem locked_step (o : Op) (s : ExchangeState) (tid : ℕ) (t : EscrowTransaction)
    (hb : ∀ p ∈ s.txns, p.1 < s.nextId)
    (hget : dbGet s.txns tid = some t) (hl : t.funds_locked = true) :
    (∀ p ∈ (stepState o s).txns, p.1 < (stepState o s).nextId) ∧
    ∃ x, dbGet (stepState o s).txns tid = some x ∧ x.funds_locked = true := by
  cases o with
  | createAsset args =>
    simp only [stepState, stepRun]
    unfold create_asset_listing
    by_cases h : args.ai_verification.ai_confidence_score < 60
    · rw [if_pos h]; exact ⟨hb, t, hget, hl⟩
    · rw [if_neg h]; exact ⟨bound_succ hb, t, hget, hl⟩
  | publishAsset aid days now =>
    simp only [stepState, stepRun]
    unfold publish_asset
    cases hga : dbGet s.assets aid with
    | none => simp only [hga]; exact ⟨hb, t, hget, hl⟩
    | some a => simp only [hga]; exact ⟨hb, t, hget, hl⟩
  | createTx args now =>
    simp only [stepState, stepRun]
    unfold create_escrow_transaction
    cases hga : dbGet s.assets args.asset_id with
    | none => simp only [hga]; exact ⟨hb, t, hget, hl⟩
    | some a =>
      simp only [hga]
      by_cases hst : a.status ≠ AssetStatus.active
      · rw [if_pos hst]; exact ⟨hb, t, hget, hl⟩
      · rw [if_neg hst]
        by_cases hins : a.available_quantity_kg < args.quantity_kg
        · rw [if_pos hins]; exact ⟨hb, t, hget, hl⟩
        · rw [if_neg hins]
          rw [dbSet_fresh_eq _ (fresh_not_hasKey hb)]
          exact ⟨bound_append_fresh hb, locked_after_append hb hget hl⟩
  | escrowFunds tid2 now =>
    simp only [stepState, stepRun]
    unfold escrow_funds
    cases hget2 : dbGet s.txns tid2 with
    | none => simp only [hget2]; exact ⟨hb, t, hget, hl⟩
    | some t' =>
      simp only [hget2]
      by_cases hl2 : t'.funds_locked = true
      · rw [if_pos hl2]; exact ⟨hb, t, hget, hl⟩
      · rw [if_neg hl2]
        have htid : tid ≠ tid2 := by
          intro he
          rw [he, hget2] at hget
          injection hget with hget
          rw [← hget] at hl
          exact hl2 hl
        have hres : ∃ x, dbGet (dbSet s.txns tid2
            { t' with funds_locked := true, funds_escrowed_at := some now,
                      status := TransactionStatus.funds_escrowed }) tid = some x ∧
            x.funds_locked = true :=
          ⟨t, by rw [dbGet_dbSet_ne _ _ _ _ htid]; exact hget, hl⟩
        have hbnd : ∀ p ∈ dbSet s.txns tid2
            { t' with funds_locked := true, funds_escrowed_at := some now,
                      status := TransactionStatus.funds_escrowed },
            p.1 < s.nextId :=
          bound_dbSet_mem hb (hb (tid2, t') (dbGet_some_mem hget2))
        cases hga : dbGet s.assets t'.asset_id with
        | none => simp only [hga]; exact ⟨hbnd, hres⟩
        | some a => simp only [hga]; exact ⟨hbnd, hres⟩
  | submitProof tid2 imgs sig qr now =>
    simp only [stepState, stepRun]
    unfold submit_delivery_proof
    cases hget2 : dbGet s.txns tid2 with
    | none => simp only [hget2]; exact ⟨hb, t, hget, hl⟩
    | some t' =>
      simp only [hget2]
      by_cases hl2 : t'.funds_locked = false
      · rw [if_pos hl2]; exact ⟨hb, t, hget, hl⟩
      · rw [if_neg hl2]
        exact ⟨bound_dbSet_mem hb (hb (tid2, t') (dbGet_some_mem hget2)),
          locked_after_replace hget hl hget2 rfl⟩
  | buyerAccept tid2 b now =>
    simp only [stepState, stepRun]
    unfold buyer_accept_delivery
    cases hget2 : dbGet s.txns tid2 with
    | none => simp only [hget2]; exact ⟨hb, t, hget, hl⟩
    | some t' =>
      simp only [hget2]
      by_cases hbid : t'.buyer_id ≠ b
      · rw [if_pos hbid]; exact ⟨hb, t, hget, hl⟩
      · rw [if_neg hbid]
        by_cases hst : t'.status ≠ TransactionStatus.in_acceptance_window
        · rw [if_pos hst]; exact ⟨hb, t, hget, hl⟩
        · rw [if_neg hst]
          have hbnd : ∀ p ∈ dbSet s.txns tid2
              { t' with buyer_accepted := true, buyer_acceptance_date := some now,
                        status := TransactionStatus.completed, completed_at := some now },
              p.1 < s.nextId :=
            bound_dbSet_mem hb (hb (tid2, t') (dbGet_some_mem hget2))
          have hres : ∃ x, dbGet (dbSet s.txns tid2
              { t' with buyer_accepted := true, buyer_acceptance_date := some now,
                        status := TransactionStatus.completed, completed_at := some now })
              tid = some x ∧ x.funds_locked = true :=
            locked_after_replace hget hl hget2 rfl
          cases hga : dbGet s.assets t'.asset_id with
          | none => simp only [hga]; exact ⟨hbnd, hres⟩
          | some a => simp only [hga]; exact ⟨hbnd, hres⟩
  | autoRelease tid2 now =>
    simp only [stepState, stepRun]
    unfold auto_release_on_expiry
    cases hget2 : dbGet s.txns tid2 with
    | none => simp only [hget2]; exact ⟨hb, t, hget, hl⟩
    | some t' =>
      simp only [hget2]
      by_cases hst : t'.status ≠ TransactionStatus.in_acceptance_window
      · rw [if_pos hst]; exact ⟨hb, t, hget, hl⟩
      · rw [if_neg hst]
        cases hend : t'.acceptance_window_end with
        | none => simp only [hend]; exact ⟨hb, t, hget, hl⟩
        | some endT =>
          simp only [hend]
          by_cases hnow : now < endT
          · rw [if_pos hnow]; exact ⟨hb, t, hget, hl⟩
          · rw [if_neg hnow]
            have hbnd : ∀ p ∈ dbSet s.txns tid2
                { t' with acceptance_window_end := some endT,
                          status := TransactionStatus.completed,
                          completed_at := some now, buyer_accepted := true },
                p.1 < s.nextId :=
              bound_dbSet_mem hb (hb (tid2, t') (dbGet_some_mem hget2))
            have hres : ∃ x, dbGet (dbSet s.txns tid2
                { t' with acceptance_window_end := some endT,
                          status := TransactionStatus.completed,
                          completed_at := some now, buyer_accepted := true })
                tid = some x ∧ x.funds_locked = true :=
              locked_after_replace hget hl hget2 rfl
            cases hga : dbGet s.assets t'.asset_id with
            | none => simp only [hga]; exact ⟨hbnd, hres⟩
            | some a => simp only [hga]; exact ⟨hbnd, hres⟩
  | openDispute tid2 args =>
    simp only [stepState, stepRun]
    unfold create_dispute
    cases hget2 : dbGet s.txns tid2 with
    | none => simp only [hget2]; exact ⟨hb, t, hget, hl⟩
    | some t' =>
      simp only [hget2]
      cases hga : dbGet s.assets t'.asset_id with
      | none => simp only [hga]; exact ⟨hb, t, hget, hl⟩
      | some a =>
        simp only [hga]
        exact ⟨bound_succ (bound_dbSet_mem hb (hb (tid2, t') (dbGet_some_mem hget2))),
          locked_after_replace hget hl hget2 rfl⟩
  | assignArb did arb name =>
    simp only [stepState, stepRun]
    unfold assign_arbitrator
    cases hgd : dbGet s.disputes did with
    | none => simp only [hgd]; exact ⟨hb, t, hget, hl⟩
    | some d => simp only [hgd]; exact ⟨hb, t, hget, hl⟩
  | resolveDispute did arb res pct notes now =>
    simp only [stepState, stepRun]
    unfold resolve_dispute
    cases hgd : dbGet s.disputes did with
    | none => simp only [hgd]; exact ⟨hb, t, hget, hl⟩
    | some d =>
      simp only [hgd]
      by_cases harb : d.assigned_arbitrator_id ≠ some arb
      · rw [if_pos harb]; exact ⟨hb, t, hget, hl⟩
      · rw [if_neg harb]
        cases hgt : dbGet s.txns d.transaction_id with
        | none => simp only [hgt]; exact ⟨hb, t, hget, hl⟩
        | some t' =>
          simp only [hgt]
          by_cases hpct : pct = 100
          · rw [if_pos hpct]
            exact ⟨bound_dbSet_mem hb (hb (d.transaction_id, t') (dbGet_some_mem hgt)),
              locked_after_replace hget hl hgt rfl⟩
          · rw [if_neg hpct]
            exact ⟨bound_dbSet_mem hb (hb (d.transaction_id, t') (dbGet_some_mem hgt)),
              locked_after_replace hget hl hgt rfl⟩

/-- A locked transaction stays locked through any sequence of later calls. -/
theorem locked_execFrom (ops : List Op) (s : ExchangeState) (tid : ℕ)
    (t : EscrowTransaction)
    (hb : ∀ p ∈ s.txns, p.1 < s.nextId)
    (hget : dbGet s.txns tid = some t) (hl : t.funds_locked = true) :
    ∃ x, dbGet (execFrom s ops).txns tid = some x ∧ x.funds_locked = true := by
  induction ops generalizing s t with
  | nil => exact ⟨t, hget, hl⟩
  | cons o ops ih =>
    have h1 : execFrom s (o :: ops) = execFrom (stepState o s) ops := by
      unfold execFrom
      rw [List.foldl_cons]
    rw [h1]
    obtain ⟨hb2, x, hx, hxl⟩ := locked_step o s tid t hb hget hl
    exact ih (stepState o s) x hb2 hx hxl

/-! ## Shared concrete fixtures -/

def aiDemo : AIVerification :=
  { harvest_health_score := some 90
    spoilage_risk_score := 10
    has_storage_condition_proof := true
    pest_free_certification := true
    soil_health_score := some 80
    ai_confidence_score := 95 }

def demoAssetArgs : AssetCreateArgs :=
  { seller_id := "s1", crop_type := "maize", quantity_kg := 100,
    unit_price_kes := 10, ai_verification := aiDemo, status := .draft }

def demoTxArgs : TxCreateArgs :=
  { asset_id := 0, buyer_id := "b1", quantity_kg := 40,
    delivery_address := none, expected_delivery_days := 3 }

def demoDisputeArgs : DisputeCreateArgs :=
  { raised_by := "buyer", raised_by_user_id := "b1",
    dispute_reason := "bad quality", dispute_category := "quality",
    description := "", evidence_images := [] }

/-- List a 100 kg maize asset at 10 KES/kg, publish it, sell 40 kg into an
escrow transaction, lock the funds, and submit delivery proof at hour 0
(acceptance window ends at hour 48).  Ids: asset 0, transaction 1. -/
def baseOps : List Op :=
  [ .createAsset demoAssetArgs,
    .publishAsset 0 30 0,
    .createTx demoTxArgs 0,
    .escrowFunds 1 0,
    .submitProof 1 ["img"] none none 0 ]

/-- The asset stored under id 0 after `baseOps`. -/
def c1asset : TokenizedAsset :=
  { seller_id := "s1", crop_type := "maize", quantity_kg := 100,
    unit_price_kes := 10, total_value_kes := 1000,
    quality_grade := .grade_a_premium, ai_verification := aiDemo,
    status := .in_escrow, available_quantity_kg := 60,
    listed_at := some 0, expires_at := some 720 }

/-- A hand-written asset record for witness states. -/
def assetDemo (st : AssetStatus) (avail : ℚ) : TokenizedAsset :=
  { seller_id := "s1", crop_type := "maize", quantity_kg := 100,
    unit_price_kes := 10, total_value_kes := 1000,
    quality_grade := .grade_a_premium, ai_verification := aiDemo,
    status := st, available_quantity_kg := avail,
    listed_at := some 0, expires_at := some 720 }

/-- A hand-written transaction on asset 0 for witness states. -/
def txnDemo (st : TransactionStatus) (locked : Bool) : EscrowTransaction :=
  { asset_id := 0, seller_id := "s1", buyer_id := "b1", quantity_kg := 40,
    agreed_price_per_kg := 10, total_amount_kes := 400,
    funds_escrowed_at := none, funds_locked := locked,
    expected_delivery_date := 72, delivery_proof_images := [],
    delivery_proof_submitted_at := none, delivery_qr_code := none,
    digital_signature := none, acceptance_window_hours := 48,
    acceptance_window_start := some 0, acceptance_window_end := some 48,
    buyer_accepted := false, buyer_acceptance_date := none,
    status := st, completed_at := none,
    seller_payout_amount := 392, platform_fee_kes := 8 }

/-- A hand-written dispute on transaction 1 for witness states. -/
def disputeDemo (st : DisputeStatus) (arb : Option String) : DisputeCase :=
  { transaction_id := 1, raised_by := "buyer", raised_by_user_id := "b1",
    dispute_reason := "bad quality", dispute_category := "quality",
    description := "", evidence_images := [],
    pre_harvest_health_score := some 90, spoilage_risk_at_sale := some 10,
    status := st, assigned_arbitrator_id := arb, arbitrator_name := none,
    arbitration_notes := none, resolution := none,
    refund_amount_kes := 0, resolved_at := none }

/-- A small server state with one asset (id 0), one transaction (id 1) and
the given disputes. -/
def demoState (a : TokenizedAsset) (t : EscrowTransaction) (ds : Db DisputeCase) :
    ExchangeState :=
  { assets := [(0, a)], txns := [(1, t)], disputes := ds, nextId := 5 }

/-- State after `baseOps` and an undisputed buyer acceptance:
transaction 1 is Completed with funds still locked. -/
def completedTxState : ExchangeState := execOps (baseOps ++ [.buyerAccept 1 "b1" 10])

/-- State after `baseOps`, a dispute on transaction 1 (id 2), arbitrator
assignment, and a 100% refund resolution at hour 100. -/
def refundState : ExchangeState :=
  execOps (baseOps ++ [.openDispute 1 demoDisputeArgs, .assignArb 2 "arb" "Arb",
                       .resolveDispute 2 "arb" "full_refund" 100 "" 100])

/-! ## Claim C1 -/

/-- Claim C1 (counterexample): after a full-refund resolution the
transaction is Refunded, yet the asset still shows 100 kg listed with only
60 kg available and no active (non-refunded) reservations — so
`available + Σ(active reservations) = 60 ≠ 100`: the refunded 40 kg is
never added back to the asset. -/
theorem C1_counterexample :
    ((dbGet refundState.txns 1).map (fun t => t.status) =
      some TransactionStatus.refunded) ∧
    ((dbGet refundState.assets 0).map (fun a => a.quantity_kg) = some 100) ∧
    ((dbGet refundState.assets 0).map
      (fun a => a.available_quantity_kg + activeTxSum 0 refundState.txns) =
      some 60) ∧
    (60 : ℚ) ≠ 100 := by
  refine ⟨by with_unfolding_all rfl, by with_unfolding_all rfl,
    by with_unfolding_all rfl, by decide⟩

/-- Claim C1 (amended): in every reachable state (with nonnegative
requested quantities), each asset's `available_quantity_kg` stays between 0
and its original `quantity_kg`, and `available_quantity_kg` plus the sum of
quantities of ALL of the asset's transactions — refunded ones included —
equals the original quantity.  `create_escrow_transaction` with
`quantity_kg` above the available quantity fails with a capacity error
(`insufficientQuantity`, or `assetNotAvailable` when the asset is not
active) and changes nothing.  A full refund does NOT add the quantity back:
`resolve_dispute` never touches the assets table. -/
theorem C1_ledger_conservation (s : ExchangeState) (hs : ReachableGood s) :
    (∀ aid a, dbGet s.assets aid = some a →
        0 ≤ a.available_quantity_kg ∧
        a.available_quantity_kg ≤ a.quantity_kg ∧
        a.available_quantity_kg + txSum aid s.txns = a.quantity_kg) ∧
    (∀ args now a, dbGet s.assets args.asset_id = some a →
        a.available_quantity_kg < args.quantity_kg →
        ((create_escrow_transaction args now s).1 =
            Except.error ApiError.insufficientQuantity ∨
         (create_escrow_transaction args now s).1 =
            Except.error ApiError.assetNotAvailable) ∧
        (create_escrow_transaction args now s).2 = s) ∧
    (∀ did arb res pct notes now,
        (resolve_dispute did arb res pct notes now s).2.assets = s.assets) := by
  obtain ⟨⟨hbA, hbT, hbD⟩, hn, hr, hq, hc⟩ := Inv_reachable hs
  refine ⟨?_, ?_, ?_⟩
  · intro aid a hget
    have hca := hc (aid, a) (dbGet_some_mem hget)
    simp only at hca
    have hnn := txSum_nonneg aid s.txns hq
    exact ⟨hca.1, by linarith [hca.2], hca.2⟩
  · intro args now a hget hlt
    have he : create_escrow_transaction args now s =
        (Except.error ApiError.assetNotAvailable, s) ∨
        create_escrow_transaction args now s =
        (Except.error ApiError.insufficientQuantity, s) := by
      unfold create_escrow_transaction
      simp only [hget]
      by_cases hst : a.status ≠ AssetStatus.active
      · left; rw [if_pos hst]
      · right; rw [if_neg hst, if_pos hlt]
    rcases he with he | he
    · exact ⟨Or.inr (by rw [he]), by rw [he]⟩
    · exact ⟨Or.inl (by rw [he]), by rw [he]⟩
  · intro did arb res pct notes now
    unfold resolve_dispute
    cases hgd : dbGet s.disputes did with
    | none => rfl
    | some d =>
      simp only [hgd]
      by_cases harb : d.assigned_arbitrator_id ≠ some arb
      · rw [if_pos harb]
      · rw [if_neg harb]
        cases hgt : dbGet s.txns d.transaction_id with
        | none => rfl
        | some t => rfl

/-- Claim C1 (witness): the conservation law evaluated on the concrete
reachable state after `baseOps` (asset 0: 60 kg left of 100 kg with a 40 kg
reservation). -/
theorem C1_ledger_conservation_witness :
    0 ≤ c1asset.available_quantity_kg ∧
    c1asset.available_quantity_kg ≤ c1asset.quantity_kg ∧
    c1asset.available_quantity_kg + txSum 0 (execOps baseOps).txns =
      c1asset.quantity_kg :=
  (C1_ledger_conservation (execOps baseOps) ⟨baseOps, by decide, rfl⟩).1
    0 c1asset (by with_unfolding_all rfl)

/-! ## Claim C2 -/

/-- State after `baseOps` and a successful auto-release at hour 50. -/
def c2state : ExchangeState := execOps (baseOps ++ [.autoRelease 1 50])

/-- Claim C2 (counterexample): transaction 1 reached Completed through
`auto_release_on_expiry`; the repeated call does NOT succeed as a no-op —
it fails with the not-in-acceptance-window error. -/
theorem C2_counterexample :
    ((dbGet c2state.txns 1).map (fun t => t.status) =
      some TransactionStatus.completed) ∧
    (auto_release_on_expiry 1 51 c2state).1 =
      Except.error ApiError.notInAcceptanceWindow := by decide

/-- Claim C2 (amended): a repeated `auto_release_on_expiry` on an
already-Completed transaction leaves the entire state unchanged and
produces no second payout, but it is rejected with the
NotInAcceptanceWindow error rather than succeeding as a no-op. -/
theorem C2_auto_release_repeat_errors (s : ExchangeState) (tid : ℕ) (now : ℤ)
    (h : (dbGet s.txns tid).map (fun t => t.status) =
      some TransactionStatus.completed) :
    auto_release_on_expiry tid now s =
      (Except.error ApiError.notInAcceptanceWindow, s) := by
  cases hget : dbGet s.txns tid with
  | none => rw [hget] at h; exact absurd h (by simp)
  | some t =>
    rw [hget] at h
    have hst : t.status = TransactionStatus.completed := by simpa using h
    unfold auto_release_on_expiry
    simp only [hget]
    rw [if_pos (show t.status ≠ TransactionStatus.in_acceptance_window by
      rw [hst]; decide)]

def wC2 : ExchangeState := demoState (assetDemo .active 60) (txnDemo .completed true) []

/-- Claim C2 (witness): the amended statement evaluated on a concrete
Completed transaction. -/
theorem C2_auto_release_repeat_errors_witness :
    auto_release_on_expiry 1 99 wC2 =
      (Except.error ApiError.notInAcceptanceWindow, wC2) :=
  C2_auto_release_repeat_errors wC2 1 99 (by decide)

/-! ## Claim C3 -/

/-- Claim C3 (counterexample): transaction 1 is Completed, yet
`create_dispute` succeeds on it and sets it to Disputed — it does not fail
with a TransactionClosed error. -/
theorem C3_counterexample :
    ((dbGet completedTxState.txns 1).map (fun t => t.status) =
      some TransactionStatus.completed) ∧
    exceptIsOk (create_dispute 1 demoDisputeArgs completedTxState).1 = true ∧
    ((dbGet (create_dispute 1 demoDisputeArgs completedTxState).2.txns 1).map
      (fun t => t.status) = some TransactionStatus.disputed) := by decide

/-- `create_dispute` on any stored transaction whose asset exists: it
succeeds, sets the transaction to Disputed and stores a fresh open
dispute case (shared workhorse for the dispute claims). -/
theorem open_dispute_spec (s : ExchangeState) (tid : ℕ)
    (t : EscrowTransaction) (args : DisputeCreateArgs)
    (hget : dbGet s.txns tid = some t)
    (ha : (dbGet s.assets t.asset_id).isSome = true) :
    exceptIsOk (create_dispute tid args s).1 = true ∧
    ((dbGet (create_dispute tid args s).2.txns tid).map (fun x => x.status) =
      some TransactionStatus.disputed) ∧
    ((dbGet (create_dispute tid args s).2.disputes s.nextId).map
      (fun d => (d.transaction_id, d.status)) =
      some (tid, DisputeStatus.opened)) := by
  rcases Option.isSome_iff_exists.mp ha with ⟨a, hga⟩
  unfold create_dispute
  simp only [hget, hga]
  refine ⟨rfl, ?_, ?_⟩
  · rw [dbGet_dbSet_self]; rfl
  · rw [dbGet_dbSet_self]; rfl

/-- Claim C3 (amended): `create_dispute` has no transaction-state guard at
all: on any stored transaction whose asset exists — whatever its state,
including Completed and Refunded — it succeeds, sets the transaction to
Disputed, and stores a fresh open dispute case referencing it; no
TransactionClosed error exists in the code. -/
theorem C3_open_dispute_unguarded (s : ExchangeState) (tid : ℕ)
    (t : EscrowTransaction) (args : DisputeCreateArgs)
    (hget : dbGet s.txns tid = some t)
    (ha : (dbGet s.assets t.asset_id).isSome = true) :
    exceptIsOk (create_dispute tid args s).1 = true ∧
    ((dbGet (create_dispute tid args s).2.txns tid).map (fun x => x.status) =
      some TransactionStatus.disputed) ∧
    ((dbGet (create_dispute tid args s).2.disputes s.nextId).map
      (fun d => (d.transaction_id, d.status)) =
      some (tid, DisputeStatus.opened)) :=
  open_dispute_spec s tid t args hget ha

def wC3 : ExchangeState := demoState (assetDemo .active 60) (txnDemo .refunded true) []

/-- Claim C3 (witness): the amended statement evaluated on a concrete
Refunded transaction. -/
theorem C3_open_dispute_unguarded_witness :
    exceptIsOk (create_dispute 1 demoDisputeArgs wC3).1 = true ∧
    ((dbGet (create_dispute 1 demoDisputeArgs wC3).2.txns 1).map
      (fun x => x.status) = some TransactionStatus.disputed) ∧
    ((dbGet (create_dispute 1 demoDisputeArgs wC3).2.disputes 5).map
      (fun d => (d.transaction_id, d.status)) =
      some (1, DisputeStatus.opened)) :=
  C3_open_dispute_unguarded wC3 1 (txnDemo .refunded true) demoDisputeArgs
    (by with_unfolding_all rfl) (by with_unfolding_all rfl)

/-! ## Claim C4 -/

/-- State after `baseOps`, a dispute opened on transaction 1 while it was
InAcceptanceWindow, and a second delivery-proof submission at hour 1 (the
dispute — id 2 — is still open). -/
def c4state : ExchangeState :=
  execOps (baseOps ++ [.openDispute 1 demoDisputeArgs,
                       .submitProof 1 ["img2"] none none 1])

/-- Claim C4 (counterexample): a dispute was opened on transaction 1 while
it was InAcceptanceWindow and has never been resolved — yet after the
seller re-submits delivery proof (which only checks `funds_locked`),
`auto_release_on_expiry` succeeds and completes the transaction: funds are
released while the dispute is still open. -/
theorem C4_counterexample :
    ((dbGet c4state.disputes 2).map (fun d => (d.transaction_id, d.status)) =
      some (1, DisputeStatus.opened)) ∧
    exceptIsOk (auto_release_on_expiry 1 49 c4state).1 = true ∧
    ((dbGet (auto_release_on_expiry 1 49 c4state).2.txns 1).map
      (fun t => t.status) = some TransactionStatus.completed) := by
  refine ⟨by with_unfolding_all rfl, by with_unfolding_all rfl,
    by with_unfolding_all rfl⟩

/-- Claim C4 (amended): opening a dispute on an InAcceptanceWindow
transaction succeeds and sets the transaction to Disputed, and as long as
the transaction remains Disputed every `buyer_accept_delivery` and
`auto_release_on_expiry` call on it is rejected (NotInAcceptanceWindow for
the transaction's buyer) and changes nothing — but the freeze lasts only
while the status stays Disputed, not until the dispute is resolved: a
repeated `submit_delivery_proof` can lift it (see the counterexample). -/
theorem C4_dispute_freeze (s : ExchangeState) (tid : ℕ)
    (t : EscrowTransaction) (args : DisputeCreateArgs)
    (hget : dbGet s.txns tid = some t)
    (_hst : t.status = TransactionStatus.in_acceptance_window)
    (ha : (dbGet s.assets t.asset_id).isSome = true) :
    exceptIsOk (create_dispute tid args s).1 = true ∧
    ((dbGet (create_dispute tid args s).2.txns tid).map (fun x => x.status) =
      some TransactionStatus.disputed) ∧
    (∀ s2 : ExchangeState,
      ((dbGet s2.txns tid).map (fun x => x.status) =
        some TransactionStatus.disputed) →
      (∀ now, auto_release_on_expiry tid now s2 =
        (Except.error ApiError.notInAcceptanceWindow, s2)) ∧
      (∀ b now, (buyer_accept_delivery tid b now s2).2 = s2 ∧
        exceptIsOk (buyer_accept_delivery tid b now s2).1 = false)) := by
  obtain ⟨h1, h2, _⟩ := open_dispute_spec s tid t args hget ha
  refine ⟨h1, h2, ?_⟩
  intro s2 hs2
  cases hget2 : dbGet s2.txns tid with
  | none => rw [hget2] at hs2; exact absurd hs2 (by simp)
  | some x =>
    rw [hget2] at hs2
    have hxst : x.status = TransactionStatus.disputed := by simpa using hs2
    constructor
    · intro now
      unfold auto_release_on_expiry
      simp only [hget2]
      rw [if_pos (show x.status ≠ TransactionStatus.in_acceptance_window by
        rw [hxst]; decide)]
    · intro b now
      unfold buyer_accept_delivery
      simp only [hget2]
      by_cases hb : x.buyer_id ≠ b
      · rw [if_pos hb]; exact ⟨rfl, rfl⟩
      · rw [if_neg hb]
        rw [if_pos (show x.status ≠ TransactionStatus.in_acceptance_window by
          rw [hxst]; decide)]
        exact ⟨rfl, rfl⟩

def wC4 : ExchangeState :=
  demoState (assetDemo .active 60) (txnDemo .in_acceptance_window true) []

/-- Claim C4 (witness): the amended statement evaluated on a concrete
InAcceptanceWindow transaction. -/
theorem C4_dispute_freeze_witness :
    exceptIsOk (create_dispute 1 demoDisputeArgs wC4).1 = true ∧
    auto_release_on_expiry 1 60 (create_dispute 1 demoDisputeArgs wC4).2 =
      (Except.error ApiError.notInAcceptanceWindow,
       (create_dispute 1 demoDisputeArgs wC4).2) := by
  have h := C4_dispute_freeze wC4 1 (txnDemo .in_acceptance_window true)
    demoDisputeArgs (by with_unfolding_all rfl) rfl (by with_unfolding_all rfl)
  exact ⟨h.1, (h.2.2 _ h.2.1).1 60⟩

/-! ## Claim C5 -/

/-- State after `baseOps`, a dispute on transaction 1 (id 2) and an
arbitrator assignment — ready for resolution. -/
def preResolveState : ExchangeState :=
  execOps (baseOps ++ [.openDispute 1 demoDisputeArgs, .assignArb 2 "arb" "Arb"])

/-- Claim C5 (counterexample): resolving dispute 2 with a 100% refund sets
the transaction to Refunded, but the reported seller payout is −8 KES (the
negated platform fee), the stored payout stays 392, and the 40 transacted
kilograms are NOT restored: the asset still shows 60 of 100 kg. -/
theorem C5_counterexample :
    (resolve_dispute 2 "arb" "full_refund" 100 "" 100 preResolveState).1 =
      Except.ok { resolution := "full_refund", refund_amount_kes := 400,
                  seller_payout_kes := -8 } ∧
    ((dbGet (resolve_dispute 2 "arb" "full_refund" 100 "" 100 preResolveState).2.txns 1).map
      (fun t => (t.status, t.seller_payout_amount)) =
      some (TransactionStatus.refunded, 392)) ∧
    ((dbGet (resolve_dispute 2 "arb" "full_refund" 100 "" 100 preResolveState).2.assets 0).map
      (fun a => (a.available_quantity_kg, a.quantity_kg)) = some (60, 100)) ∧
    (-8 : ℚ) ≠ 0 ∧ (392 : ℚ) ≠ 0 ∧ (60 : ℚ) ≠ 100 := by
  refine ⟨by with_unfolding_all rfl, by with_unfolding_all rfl,
    by with_unfolding_all rfl, by decide, by decide, by decide⟩

/-- Claim C5 (amended): for every assigned dispute on a stored transaction,
`resolve_dispute` with `refund_percentage = 100` succeeds and sets the
transaction to Refunded with a full refund of the total amount, but the
seller payout it reports is −platform_fee rather than 0, the stored
`seller_payout_amount` keeps its previous value, and the transacted
quantity is NOT restored: the assets table is untouched. -/
theorem C5_full_refund_no_restore (s : ExchangeState) (did : ℕ)
    (d : DisputeCase) (t : EscrowTransaction) (arb res notes : String) (now : ℤ)
    (hgd : dbGet s.disputes did = some d)
    (harb : d.assigned_arbitrator_id = some arb)
    (hgt : dbGet s.txns d.transaction_id = some t) :
    (resolve_dispute did arb res 100 notes now s).1 =
      Except.ok { resolution := res, refund_amount_kes := t.total_amount_kes,
                  seller_payout_kes := -t.platform_fee_kes } ∧
    ((dbGet (resolve_dispute did arb res 100 notes now s).2.txns
        d.transaction_id).map
      (fun x => (x.status, x.seller_payout_amount)) =
      some (TransactionStatus.refunded, t.seller_payout_amount)) ∧
    (resolve_dispute did arb res 100 notes now s).2.assets = s.assets := by
  unfold resolve_dispute
  simp only [hgd]
  rw [if_neg (by simp [harb])]
  simp only [hgt, if_true]
  have e1 : t.total_amount_kes * ((100 : ℚ) / 100) = t.total_amount_kes := by
    norm_num
  refine ⟨?_, ?_, ?_⟩
  · rw [e1, show t.total_amount_kes - t.total_amount_kes - t.platform_fee_kes
      = -t.platform_fee_kes from by ring]
  · rw [dbGet_dbSet_self]; rfl
  · trivial

def wC5 : ExchangeState :=
  { assets := [(0, assetDemo .in_escrow 60)]
    txns := [(1, txnDemo .disputed true)]
    disputes := [(2, disputeDemo .under_review (some "arb"))]
    nextId := 5 }

/-- Claim C5 (witness): the amended statement evaluated on a concrete
assigned dispute. -/
theorem C5_full_refund_no_restore_witness :
    (resolve_dispute 2 "arb" "full_refund" 100 "note" 90 wC5).1 =
      Except.ok { resolution := "full_refund",
                  refund_amount_kes := (txnDemo .disputed true).total_amount_kes,
                  seller_payout_kes := -(txnDemo .disputed true).platform_fee_kes } ∧
    ((dbGet (resolve_dispute 2 "arb" "full_refund" 100 "note" 90 wC5).2.txns 1).map
      (fun x => (x.status, x.seller_payout_amount)) =
      some (TransactionStatus.refunded,
        (txnDemo .disputed true).seller_payout_amount)) ∧
    (resolve_dispute 2 "arb" "full_refund" 100 "note" 90 wC5).2.assets =
      wC5.assets :=
  C5_full_refund_no_restore wC5 2 (disputeDemo .under_review (some "arb"))
    (txnDemo .disputed true) "arb" "full_refund" "note" 90
    (by with_unfolding_all rfl) rfl (by with_unfolding_all rfl)

/-! ## Claim C6 -/

/-- Claim C6 (counterexample): dispute 2 is already Resolved, yet a second
`resolve_dispute` call by the same arbitrator succeeds and overwrites the
resolution instead of failing with DisputeAlreadyResolved. -/
theorem C6_counterexample :
    ((dbGet refundState.disputes 2).map (fun d => d.status) =
      some DisputeStatus.resolved) ∧
    exceptIsOk (resolve_dispute 2 "arb" "seller_wins" 0 "again" 200 refundState).1 = true ∧
    ((dbGet (resolve_dispute 2 "arb" "seller_wins" 0 "again" 200 refundState).2.disputes 2).map
      (fun d => d.resolution) = some (some "seller_wins")) := by
  refine ⟨by with_unfolding_all rfl, by with_unfolding_all rfl,
    by with_unfolding_all rfl⟩

/-- Claim C6 (amended): `resolve_dispute` has no already-resolved guard:
called again by the assigned arbitrator on an already-Resolved dispute
(whose transaction exists), it succeeds and recomputes the refund,
overwriting the dispute's resolution, notes and timestamps — the records do
NOT stay unchanged and no DisputeAlreadyResolved error exists in the
code. -/
theorem C6_reresolve_succeeds (s : ExchangeState) (did : ℕ) (d : DisputeCase)
    (arb res notes : String) (pct : ℚ) (now : ℤ)
    (hgd : dbGet s.disputes did = some d)
    (_hres : d.status = DisputeStatus.resolved)
    (harb : d.assigned_arbitrator_id = some arb)
    (hgt : (dbGet s.txns d.transaction_id).isSome = true) :
    exceptIsOk (resolve_dispute did arb res pct notes now s).1 = true ∧
    ((dbGet (resolve_dispute did arb res pct notes now s).2.disputes did).map
      (fun x => (x.status, x.resolution, x.arbitration_notes)) =
      some (DisputeStatus.resolved, some res, some notes)) := by
  rcases Option.isSome_iff_exists.mp hgt with ⟨t, hgt2⟩
  unfold resolve_dispute
  simp only [hgd]
  rw [if_neg (by simp [harb])]
  simp only [hgt2]
  exact ⟨rfl, by rw [dbGet_dbSet_self]; rfl⟩

def wC6 : ExchangeState :=
  { assets := [(0, assetDemo .in_escrow 60)]
    txns := [(1, txnDemo .refunded true)]
    disputes := [(2, disputeDemo .resolved (some "arb"))]
    nextId := 5 }

/-- Claim C6 (witness): the amended statement evaluated on a concrete
already-Resolved dispute. -/
theorem C6_reresolve_succeeds_witness :
    exceptIsOk (resolve_dispute 2 "arb" "negotiated" 50 "second look" 300 wC6).1 = true ∧
    ((dbGet (resolve_dispute 2 "arb" "negotiated" 50 "second look" 300 wC6).2.disputes 2).map
      (fun x => (x.status, x.resolution, x.arbitration_notes)) =
      some (DisputeStatus.resolved, some "negotiated", some "second look")) :=
  C6_reresolve_succeeds wC6 2 (disputeDemo .resolved (some "arb"))
    "arb" "negotiated" "second look" 50 300
    (by with_unfolding_all rfl) rfl rfl (by with_unfolding_all rfl)

/-! ## Claim C7 -/

/-- Claim C7: `funds_locked` goes false→true exactly once.  On an unlocked
stored transaction (with its asset present) `escrow_funds` succeeds,
setting `funds_locked = true` and status FundsEscrowed; on a locked one it
fails with AlreadyEscrowed and changes nothing; and after ANY sequence of
further API calls the transaction is still locked and `escrow_funds` still
fails the same way — funds are never double-locked. -/
theorem C7_funds_locked_once (s : ExchangeState)
    (hb : ∀ p ∈ s.txns, p.1 < s.nextId) :
    (∀ tid t now, dbGet s.txns tid = some t → t.funds_locked = false →
        (dbGet s.assets t.asset_id).isSome = true →
        exceptIsOk (escrow_funds tid now s).1 = true ∧
        ((dbGet (escrow_funds tid now s).2.txns tid).map
          (fun x => (x.funds_locked, x.status)) =
          some (true, TransactionStatus.funds_escrowed))) ∧
    (∀ tid t now, dbGet s.txns tid = some t → t.funds_locked = true →
        escrow_funds tid now s = (Except.error ApiError.fundsAlreadyEscrowed, s)) ∧
    (∀ ops tid t, dbGet s.txns tid = some t → t.funds_locked = true →
        ∀ now, escrow_funds tid now (execFrom s ops) =
          (Except.error ApiError.fundsAlreadyEscrowed, execFrom s ops)) := by
  have herr : ∀ (s2 : ExchangeState) (tid : ℕ) (t : EscrowTransaction) (now : ℤ),
      dbGet s2.txns tid = some t → t.funds_locked = true →
      escrow_funds tid now s2 =
        (Except.error ApiError.fundsAlreadyEscrowed, s2) := by
    intro s2 tid t now hget hl
    unfold escrow_funds
    simp only [hget]
    rw [if_pos hl]
  refine ⟨?_, fun tid t now hget hl => herr s tid t now hget hl, ?_⟩
  · intro tid t now hget hl ha
    rcases Option.isSome_iff_exists.mp ha with ⟨a, hga⟩
    unfold escrow_funds
    simp only [hget]
    rw [if_neg (by simp [hl])]
    simp only [hga]
    refine ⟨rfl, ?_⟩
    rw [dbGet_dbSet_self]
    rfl
  · intro ops tid t hget hl now
    obtain ⟨x, hx, hxl⟩ := locked_execFrom ops s tid t hb hget hl
    exact herr (execFrom s ops) tid x now hx hxl

def wC7 : ExchangeState := demoState (assetDemo .active 60) (txnDemo .pending false) []

def wC7b : ExchangeState :=
  demoState (assetDemo .in_escrow 60) (txnDemo .funds_escrowed true) []

def opsW : List Op := [.submitProof 1 ["i"] none none 4, .autoRelease 1 60]

/-- Claim C7 (witness): a first escrow on a concrete unlocked transaction
succeeds and locks it; on a locked transaction, even after further calls
(a proof re-submission and an auto-release), escrow still fails with
AlreadyEscrowed and changes nothing. -/
theorem C7_funds_locked_once_witness :
    (exceptIsOk (escrow_funds 1 3 wC7).1 = true ∧
      ((dbGet (escrow_funds 1 3 wC7).2.txns 1).map
        (fun x => (x.funds_locked, x.status)) =
        some (true, TransactionStatus.funds_escrowed))) ∧
    escrow_funds 1 99 (execFrom wC7b opsW) =
      (Except.error ApiError.fundsAlreadyEscrowed, execFrom wC7b opsW) := by
  have h1 := C7_funds_locked_once wC7 (by decide)
  have h2 := C7_funds_locked_once wC7b (by decide)
  exact ⟨h1.1 1 (txnDemo .pending false) 3 (by with_unfolding_all rfl) rfl
      (by with_unfolding_all rfl),
    h2.2.2 opsW 1 (txnDemo .funds_escrowed true) (by with_unfolding_all rfl)
      rfl 99⟩

/-! ## Claim C8 -/

theorem map_unit_eq_error {α : Type} {x : Except ApiError α} {e : ApiError}
    (h : x.map (fun _ => ()) = Except.error e) : x = Except.error e := by
  cases x with
  | ok v => simp [Except.map] at h
  | error e2 =>
    simp only [Except.map] at h
    injection h with h
    rw [h]

theorem create_asset_err (args : AssetCreateArgs) (s : ExchangeState)
    (e : ApiError) (h : (create_asset_listing args s).1 = Except.error e) :
    (create_asset_listing args s).2 = s := by
  unfold create_asset_listing at h ⊢
  by_cases hc : args.ai_verification.ai_confidence_score < 60
  · rw [if_pos hc]
  · rw [if_neg hc] at h
    exact Except.noConfusion h

theorem publish_err (aid : ℕ) (days now : ℤ) (s : ExchangeState)
    (e : ApiError) (h : (publish_asset aid days now s).1 = Except.error e) :
    (publish_asset aid days now s).2 = s := by
  unfold publish_asset at h ⊢
  cases hga : dbGet s.assets aid with
  | none => simp only [hga]
  | some a =>
    simp only [hga] at h
    exact Except.noConfusion h

theorem create_tx_err (args : TxCreateArgs) (now : ℤ) (s : ExchangeState)
    (e : ApiError)
    (h : (create_escrow_transaction args now s).1 = Except.error e) :
    (create_escrow_transaction args now s).2 = s := by
  unfold create_escrow_transaction at h ⊢
  cases hga : dbGet s.assets args.asset_id with
  | none => simp only [hga]
  | some a =>
    simp only [hga] at h ⊢
    by_cases hst : a.status ≠ AssetStatus.active
    · rw [if_pos hst]
    · rw [if_neg hst] at h ⊢
      by_cases hins : a.available_quantity_kg < args.quantity_kg
      · rw [if_pos hins]
      · rw [if_neg hins] at h
        exact Except.noConfusion h

theorem escrow_err (tid : ℕ) (now : ℤ) (s : ExchangeState) (e : ApiError)
    (hr : RefsOk s) (h : (escrow_funds tid now s).1 = Except.error e) :
    (escrow_funds tid now s).2 = s := by
  unfold escrow_funds at h ⊢
  cases hget : dbGet s.txns tid with
  | none => simp only [hget]
  | some t =>
    simp only [hget] at h ⊢
    by_cases hl : t.funds_locked = true
    · rw [if_pos hl]
    · rw [if_neg hl] at h ⊢
      cases hga : dbGet s.assets t.asset_id with
      | none =>
        exfalso
        have hx := hr.1 (tid, t) (dbGet_some_mem hget)
        simp only at hx
        rw [hga] at hx
        exact absurd hx (by simp)
      | some a =>
        simp only [hga] at h
        exact Except.noConfusion h

theorem submit_err (tid : ℕ) (imgs : List String) (sig qr : Option String)
    (now : ℤ) (s : ExchangeState) (e : ApiError)
    (h : (submit_delivery_proof tid imgs sig qr now s).1 = Except.error e) :
    (submit_delivery_proof tid imgs sig qr now s).2 = s := by
  unfold submit_delivery_proof at h ⊢
  cases hget : dbGet s.txns tid with
  | none => simp only [hget]
  | some t =>
    simp only [hget] at h ⊢
    by_cases hl : t.funds_locked = false
    · rw [if_pos hl]
    · rw [if_neg hl] at h
      exact Except.noConfusion h

theorem buyer_accept_err (tid : ℕ) (b : String) (now : ℤ) (s : ExchangeState)
    (e : ApiError) (hr : RefsOk s)
    (h : (buyer_accept_delivery tid b now s).1 = Except.error e) :
    (buyer_accept_delivery tid b now s).2 = s := by
  unfold buyer_accept_delivery at h ⊢
  cases hget : dbGet s.txns tid with
  | none => simp only [hget]
  | some t =>
    simp only [hget] at h ⊢
    by_cases hb : t.buyer_id ≠ b
    · rw [if_pos hb]
    · rw [if_neg hb] at h ⊢
      by_cases hst : t.status ≠ TransactionStatus.in_acceptance_window
      · rw [if_pos hst]
      · rw [if_neg hst] at h ⊢
        cases hga : dbGet s.assets t.asset_id with
        | none =>
          exfalso
          have hx := hr.1 (tid, t) (dbGet_some_mem hget)
          simp only at hx
          rw [hga] at hx
          exact absurd hx (by simp)
        | some a =>
          simp only [hga] at h
          exact Except.noConfusion h

theorem auto_release_err (tid : ℕ) (now : ℤ) (s : ExchangeState)
    (e : ApiError) (hr : RefsOk s)
    (h : (auto_release_on_expiry tid now s).1 = Except.error e) :
    (auto_release_on_expiry tid now s).2 = s := by
  unfold auto_release_on_expiry at h ⊢
  cases hget : dbGet s.txns tid with
  | none => simp only [hget]
  | some t =>
    simp only [hget] at h ⊢
    by_cases hst : t.status ≠ TransactionStatus.in_acceptance_window
    · rw [if_pos hst]
    · rw [if_neg hst] at h ⊢
      cases hend : t.acceptance_window_end with
      | none => simp only [hend]
      | some endT =>
        simp only [hend] at h ⊢
        by_cases hnow : now < endT
        · rw [if_pos hnow]
        · rw [if_neg hnow] at h ⊢
          cases hga : dbGet s.assets t.asset_id with
          | none =>
            exfalso
            have hx := hr.1 (tid, t) (dbGet_some_mem hget)
            simp only at hx
            rw [hga] at hx
            exact absurd hx (by simp)
          | some a =>
            simp only [hga] at h
            exact Except.noConfusion h

theorem open_dispute_err (tid : ℕ) (args : DisputeCreateArgs)
    (s : ExchangeState) (e : ApiError)
    (h : (create_dispute tid args s).1 = Except.error e) :
    (create_dispute tid args s).2 = s := by
  unfold create_dispute at h ⊢
  cases hget : dbGet s.txns tid with
  | none => simp only [hget]
  | some t =>
    simp only [hget] at h ⊢
    cases hga : dbGet s.assets t.asset_id with
    | none => simp only [hga]
    | some a =>
      simp only [hga] at h
      exact Except.noConfusion h

theorem assign_err (did : ℕ) (arb name : String) (s : ExchangeState)
    (e : ApiError) (h : (assign_arbitrator did arb name s).1 = Except.error e) :
    (assign_arbitrator did arb name s).2 = s := by
  unfold assign_arbitrator at h ⊢
  cases hgd : dbGet s.disputes did with
  | none => simp only [hgd]
  | some d =>
    simp only [hgd] at h
    exact Except.noConfusion h

theorem resolve_err (did : ℕ) (arb res : String) (pct : ℚ) (notes : String)
    (now : ℤ) (s : ExchangeState) (e : ApiError)
    (h : (resolve_dispute did arb res pct notes now s).1 = Except.error e) :
    (resolve_dispute did arb res pct notes now s).2 = s := by
  unfold resolve_dispute at h ⊢
  cases hgd : dbGet s.disputes did with
  | none => simp only [hgd]
  | some d =>
    simp only [hgd] at h ⊢
    by_cases harb : d.assigned_arbitrator_id ≠ some arb
    · rw [if_pos harb]
    · rw [if_neg harb] at h ⊢
      cases hgt : dbGet s.txns d.transaction_id with
      | none => simp only [hgt]
      | some t =>
        simp only [hgt] at h
        exact Except.noConfusion h

/-- Claim C8: every state-machine call is all-or-nothing: whenever a call
is rejected with an error, no asset, transaction, or dispute record is
mutated — provided the state has no dangling references (true of every
reachable state; on a dangling reference the Python code does not reject
but crashes with a KeyError after a partial mutation, which the embedding
records as `internalKeyError`). -/
theorem C8_rejected_calls_mutate_nothing (o : Op) (s s2 : ExchangeState)
    (e : ApiError) (hr : RefsOk s)
    (h : stepRun o s = (Except.error e, s2)) : s2 = s := by
  have hsnd : (stepRun o s).2 = s2 := by rw [h]
  have hfst : (stepRun o s).1 = Except.error e := by rw [h]
  rw [← hsnd]
  cases o with
  | createAsset args =>
    exact create_asset_err args s e (map_unit_eq_error (by simpa [stepRun] using hfst))
  | publishAsset aid days now =>
    exact publish_err aid days now s e (map_unit_eq_error (by simpa [stepRun] using hfst))
  | createTx args now =>
    exact create_tx_err args now s e (map_unit_eq_error (by simpa [stepRun] using hfst))
  | escrowFunds tid now =>
    exact escrow_err tid now s e hr (map_unit_eq_error (by simpa [stepRun] using hfst))
  | submitProof tid imgs sig qr now =>
    exact submit_err tid imgs sig qr now s e (map_unit_eq_error (by simpa [stepRun] using hfst))
  | buyerAccept tid b now =>
    exact buyer_accept_err tid b now s e hr (map_unit_eq_error (by simpa [stepRun] using hfst))
  | autoRelease tid now =>
    exact auto_release_err tid now s e hr (map_unit_eq_error (by simpa [stepRun] using hfst))
  | openDispute tid args =>
    exact open_dispute_err tid args s e (map_unit_eq_error (by simpa [stepRun] using hfst))
  | assignArb did arb name =>
    exact assign_err did arb name s e (map_unit_eq_error (by simpa [stepRun] using hfst))
  | resolveDispute did arb res pct notes now =>
    exact resolve_err did arb res pct notes now s e (map_unit_eq_error (by simpa [stepRun] using hfst))

def wC8 : ExchangeState :=
  demoState (assetDemo .in_escrow 60) (txnDemo .funds_escrowed true) []

/-- Claim C8 (witness): a rejected double-escrow on a concrete state leaves
the state unchanged. -/
theorem C8_rejected_calls_mutate_nothing_witness :
    (stepRun (Op.escrowFunds 1 5) wC8).2 = wC8 :=
  C8_rejected_calls_mutate_nothing (Op.escrowFunds 1 5) wC8
    ((stepRun (Op.escrowFunds 1 5) wC8).2) ApiError.fundsAlreadyEscrowed
    (by decide) (by with_unfolding_all rfl)

/-! ## Claim C9 -/

/-- Claim C9 (counterexample): transaction 1 is Completed (not
FundsEscrowed), yet `submit_delivery_proof` succeeds on it — storing the
new proof, opening a fresh 48-hour window at hour 20, and putting the
transaction back to InAcceptanceWindow. -/
theorem C9_counterexample :
    ((dbGet completedTxState.txns 1).map (fun t => (t.status, t.funds_locked)) =
      some (TransactionStatus.completed, true)) ∧
    exceptIsOk (submit_delivery_proof 1 ["img2"] none none 20 completedTxState).1 = true ∧
    ((dbGet (submit_delivery_proof 1 ["img2"] none none 20 completedTxState).2.txns 1).map
      (fun t => (t.status, t.acceptance_window_start, t.acceptance_window_end)) =
      some (TransactionStatus.in_acceptance_window, some 20, some 68)) := by
  refine ⟨by with_unfolding_all rfl, by with_unfolding_all rfl,
    by with_unfolding_all rfl⟩

/-- Claim C9 (amended): `submit_delivery_proof` checks only `funds_locked`,
not the status.  On a stored transaction with `funds_locked = false` it
fails with FundsNotEscrowed and changes nothing; with `funds_locked = true`
— in ANY status, FundsEscrowed or not, including Completed and Disputed —
it succeeds, stores the proof, opens an acceptance window of
`acceptance_window_hours` (48 by default) from now, and sets the status to
InAcceptanceWindow. -/
theorem C9_submit_requires_only_funds_locked (s : ExchangeState) (tid : ℕ)
    (t : EscrowTransaction) (imgs : List String) (sig qr : Option String)
    (now : ℤ) (hget : dbGet s.txns tid = some t) :
    (t.funds_locked = false →
      submit_delivery_proof tid imgs sig qr now s =
        (Except.error ApiError.fundsNotEscrowed, s)) ∧
    (t.funds_locked = true →
      submit_delivery_proof tid imgs sig qr now s =
        (Except.ok (now + t.acceptance_window_hours),
         { s with txns := dbSet s.txns tid
                    ({ t with delivery_proof_images := imgs,
                              digital_signature := sig,
                              delivery_qr_code := qr,
                              delivery_proof_submitted_at := some now,
                              acceptance_window_start := some now,
                              acceptance_window_end := some (now + t.acceptance_window_hours),
                              status := TransactionStatus.in_acceptance_window }) })) := by
  constructor
  · intro hl
    unfold submit_delivery_proof
    simp only [hget]
    rw [if_pos hl]
  · intro hl
    unfold submit_delivery_proof
    simp only [hget]
    rw [if_neg (by simp [hl])]

def wC9 : ExchangeState := demoState (assetDemo .active 60) (txnDemo .completed true) []

/-- Claim C9 (witness): the amended statement evaluated on a concrete
Completed transaction with funds locked. -/
theorem C9_submit_requires_only_funds_locked_witness :
    submit_delivery_proof 1 ["im"] none none 20 wC9 =
      (Except.ok (20 + (txnDemo .completed true).acceptance_window_hours),
       { wC9 with txns := dbSet wC9.txns 1
                    ({ (txnDemo .completed true) with
                       delivery_proof_images := ["im"], digital_signature := none,
                       delivery_qr_code := none,
                       delivery_proof_submitted_at := some 20,
                       acceptance_window_start := some 20,
                       acceptance_window_end :=
                         some (20 + (txnDemo .completed true).acceptance_window_hours),
                       status := TransactionStatus.in_acceptance_window }) }) :=
  (C9_submit_requires_only_funds_locked wC9 1 (txnDemo .completed true)
    ["im"] none none 20 (by with_unfolding_all rfl)).2 rfl

/-! ## Claim C10 -/

/-- Claim C10: a successful `escrow_funds` sets the referenced asset's
status to IN_ESCROW unconditionally — its available quantity is untouched,
even when it is still positive — so the asset no longer appears among the
entries returned by the active-assets listing, under every filter
combination. -/
theorem C10_escrow_delists_asset (s : ExchangeState) (tid : ℕ)
    (t : EscrowTransaction) (now : ℤ)
    (hget : dbGet s.txns tid = some t)
    (hl : t.funds_locked = false)
    (ha : (dbGet s.assets t.asset_id).isSome = true) :
    exceptIsOk (escrow_funds tid now s).1 = true ∧
    ((dbGet (escrow_funds tid now s).2.assets t.asset_id).map
      (fun a => a.status) = some AssetStatus.in_escrow) ∧
    ((dbGet (escrow_funds tid now s).2.assets t.asset_id).map
      (fun a => a.available_quantity_kg) =
      (dbGet s.assets t.asset_id).map (fun a => a.available_quantity_kg)) ∧
    (∀ copt gopt mp mq, t.asset_id ∉
      (activeAssetEntries (escrow_funds tid now s).2 copt gopt mp mq).map
        Prod.fst) := by
  rcases Option.isSome_iff_exists.mp ha with ⟨a, hga⟩
  unfold escrow_funds
  simp only [hget]
  rw [if_neg (by simp [hl])]
  simp only [hga]
  refine ⟨rfl, ?_, ?_, ?_⟩
  · rw [dbGet_dbSet_self]
    rfl
  · rw [dbGet_dbSet_self]
    rfl
  · intro copt gopt mp mq hmem
    rcases List.mem_map.mp hmem with ⟨p, hp, hpk⟩
    unfold activeAssetEntries at hp
    have hp1 := List.mem_of_mem_filter hp
    have hp2 := List.mem_of_mem_filter hp1
    have hp3 := List.mem_of_mem_filter hp2
    have hp3b := List.mem_of_mem_filter hp3
    have hp4 := List.mem_filter.mp hp3b
    have hp5 : p ∈ dbSet s.assets t.asset_id
        { a with status := AssetStatus.in_escrow } := hp4.1
    have hpe := mem_dbSet_key_eq hp5 hpk
    have hst : p.2.status = AssetStatus.active := by simpa using hp4.2
    rw [hpe] at hst
    have hst2 : AssetStatus.in_escrow = AssetStatus.active := hst
    exact absurd hst2 (by decide)

def wC10 : ExchangeState := demoState (assetDemo .active 60) (txnDemo .pending false) []

/-- Claim C10 (witness): escrowing on a concrete asset with 60 kg still
available delists it anyway. -/
theorem C10_escrow_delists_asset_witness :
    exceptIsOk (escrow_funds 1 7 wC10).1 = true ∧
    ((dbGet (escrow_funds 1 7 wC10).2.assets 0).map (fun a => a.status) =
      some AssetStatus.in_escrow) ∧
    ((dbGet wC10.assets 0).map (fun a => a.available_quantity_kg) = some 60) ∧
    (0 : ℚ) < 60 ∧
    0 ∉ (activeAssetEntries (escrow_funds 1 7 wC10).2 none none none none).map
      Prod.fst := by
  have h := C10_escrow_delists_asset wC10 1 (txnDemo .pending false) 7
    (by with_unfolding_all rfl) rfl (by with_unfolding_all rfl)
  exact ⟨h.1, h.2.1, by with_unfolding_all rfl, by decide,
    h.2.2.2 none none none none⟩

end AgroPulse
